import Mathlib

/-!
# Verification of the grocery-assistant domain tools and message loop

Shallow embedding of the grocery-assistant repository:

* `src/app/models/*.py` — the persisted entities (ingredients, shopping
  lists and their items, meal plans, recipes, recipe ingredient links,
  pantry items, recipe notes), embedded as Lean structures, with the
  database held as explicit lists of rows inside a `DB` record.
* `src/app/tools.py` — the tool handlers, embedded as pure functions
  `params → DB → DB × result`.
* `src/app/slack_handler.py` / `src/app/action_parser.py` — the message
  processing path, embedded with the network and regex outcomes passed
  in as explicit data.

Conventions used throughout:

* SQLAlchemy `query(...).first()` with no `order_by` is embedded as
  `List.find?` over the row list in insertion order.
* `order_by(created_at.desc()).first()` is embedded as a fold picking
  the row with the strictly greatest `createdAt` (first row wins ties).
* Column mutation on a fetched ORM row is embedded as a `List.map`
  replacing the row(s) with the fetched row's primary key.
* `datetime.utcnow()` / `date.today()` read the `now` / `today` fields
  of the `DB` record.
* Python truthiness on optional strings (`if x:`) treats both `None`
  and the empty string as false; `pyStrTruthy` mirrors this.
* The event-log table (`_log_event`) is append-only audit data never
  read back by any embedded operation, so it is not carried in `DB`.
-/

namespace GroceryAssistant

/-! ## String normalization (src/app/models/ingredient.py, normalize_ingredient_name) -/

/-- Python `\w` on the ASCII range: letters, digits and underscore
(`re.sub(r"[^\w\s]", "", name)` keeps word and whitespace characters). -/
def isWordChar (c : Char) : Bool :=
  c.isAlphanum || c == '_'

/-- Python `\s` on the ASCII range: space, tab, newline, carriage return,
form feed and vertical tab. -/
def isSpaceChar (c : Char) : Bool :=
  c == ' ' || c == '\t' || c == '\n' || c == '\r' || c == '\x0b' || c == '\x0c'

/-- Split a character list into maximal whitespace-free words, dropping
all whitespace (auxiliary accumulator holds the current word reversed). -/
def wordsAux : List Char → List Char → List (List Char)
  | [], cur => if cur.isEmpty then [] else [cur.reverse]
  | c :: cs, cur =>
    if isSpaceChar c then
      if cur.isEmpty then wordsAux cs [] else cur.reverse :: wordsAux cs []
    else
      wordsAux cs (c :: cur)

/-- `normalize_ingredient_name`: lowercase, strip punctuation
(`[^\w\s]`), collapse whitespace runs to single spaces and strip the
ends.  The collapse-and-strip step (`re.sub(r"\s+", " ", name).strip()`)
is embedded as splitting into words and re-joining with single spaces. -/
def normalize_ingredient_name (s : String) : String :=
  let kept := (s.data.map Char.toLower).filter (fun c => isWordChar c || isSpaceChar c)
  ⟨List.intercalate [' '] (wordsAux kept [])⟩

/-- `startsWithChars hay needle`: `needle` is a leading run of `hay`. -/
def startsWithChars : List Char → List Char → Bool
  | _, [] => true
  | [], _ :: _ => false
  | a :: as, b :: bs => a == b && startsWithChars as bs

/-- `containsChars hay needle`: `needle` occurs contiguously in `hay`. -/
def containsChars : List Char → List Char → Bool
  | [], needle => needle.isEmpty
  | a :: as, needle => startsWithChars (a :: as) needle || containsChars as needle

/-- SQL `column.contains(x)` (i.e. `LIKE '%x%'`): substring test. -/
def strContains (hay needle : String) : Bool :=
  containsChars hay.data needle.data

/-- Insert into a sorted list (auxiliary for `sortBy`). -/
def insertSorted (le : α → α → Bool) (a : α) : List α → List α
  | [] => [a]
  | b :: t => if le a b then a :: b :: t else b :: insertSorted le a t

/-- Structural insertion sort, the embedding of SQL `ORDER BY`
(deterministic and kernel-computable; the claims never depend on the
relative order of rows that compare equal). -/
def sortBy (le : α → α → Bool) : List α → List α
  | [] => []
  | a :: t => insertSorted le a (sortBy le t)

/-- Python truthiness of an optional string: `None` and `""` are falsy. -/
def pyStrTruthy : Option String → Bool
  | none => false
  | some s => s ≠ ""

/-- Python `x or default` on an optional string (used for the
`natural_response or "..."` returns in action_parser.py). -/
def pyStrOr (x : Option String) (d : String) : String :=
  match x with
  | some s => if s = "" then d else s
  | none => d

/-! ## Data model (src/app/models/) -/

/-- `ShoppingListStatus` (models/shopping_list.py). -/
inductive SLStatus where
  | active
  | ordered
deriving DecidableEq, Repr

/-- `MealPlanStatus` (models/meal_plan.py). -/
inductive MPStatus where
  | planning
  | finalized
  | completed
deriving DecidableEq, Repr

/-- `NoteOutcome` (models/recipe_notes.py).  Its only members are
BETTER, WORSE and NEUTRAL — there is no `SUCCESS` member. -/
inductive NoteOutcome where
  | better
  | worse
  | neutral
deriving DecidableEq, Repr

/-- `Ingredient` row (models/ingredient.py).  The `aliases`,
`last_known_price` and `purchase_source` columns are added to the
`ingredients` table by migrations 003 and 004
(src/alembic/versions/…003_price_and_aliases.py, …004_purchase_source.py)
and are read and written by src/app/tools.py; the model-class file in
src/ predates those migrations, so the three columns are taken from the
migrations and the tool code.  Prices are embedded as rationals (the
handlers only store and echo them, never compute with them). -/
structure Ingredient where
  id : Nat
  name : String
  normalizedName : String
  krogerProductId : Option String := none
  preferredBrand : Option String := none
  preferredSize : Option String := none
  category : Option String := none
  aliases : Option (List String) := none
  lastKnownPrice : Option Rat := none
  purchaseSource : Option String := none
deriving DecidableEq, Repr

/-- `ShoppingList` row (models/shopping_list.py). -/
structure ShoppingListRow where
  id : Nat
  status : SLStatus
  orderedAt : Option Nat := none
deriving DecidableEq, Repr

/-- `ShoppingListItem` row (models/ingredient.py). -/
structure ItemRow where
  id : Nat
  shoppingListId : Nat
  ingredientId : Nat
  quantity : Option Rat := none
  unit : Option String := none
  addedBy : String := ""
  addedAt : Nat := 0
  fromRecipeId : Option Nat := none
  checkedOff : Bool := false
deriving DecidableEq, Repr

/-- One entry of the `meals` JSON array of a meal plan (tools.py,
execute_add_meal builds `{"meal_name": …, "added_at": …, "recipe_id": …,
"notes": …}`). -/
structure MealEntry where
  mealName : String
  recipeId : Option Nat := none
  notes : Option String := none
  addedAt : Nat := 0
deriving DecidableEq, Repr

/-- `MealPlan` row (models/meal_plan.py). -/
structure MealPlanRow where
  id : Nat
  weekStartDate : Nat
  meals : Option (List MealEntry) := none
  status : MPStatus
  createdAt : Nat := 0
deriving DecidableEq, Repr

/-- `Recipe` row (models/recipe.py). -/
structure RecipeRow where
  id : Nat
  name : String
  instructions : Option String := none
  cuisine : Option String := none
  tags : Option (List String) := none
  updatedAt : Nat := 0
deriving DecidableEq, Repr

/-- `RecipeIngredient` junction row (models/ingredient.py). -/
structure RecipeIngredientRow where
  id : Nat
  recipeId : Nat
  ingredientId : Nat
  quantity : Option Rat := none
  unit : Option String := none
  prepNotes : Option String := none
  optional : Bool := false
deriving DecidableEq, Repr

/-- `PantryItem` row (models/pantry.py; only the fields the embedded
tools read). -/
structure PantryRow where
  id : Nat
  itemName : String
  ingredientId : Option Nat := none
  quantity : Option Rat := none
  unit : Option String := none
deriving DecidableEq, Repr

/-- `RecipeNote` row (models/recipe_notes.py; `added_by` is *not* among
its attributes — the user column is named `user`). -/
structure RecipeNoteRow where
  id : Nat
  recipeId : Option Nat := none
  recipeName : String
  recipeNameNormalized : String
  title : Option String := none
  user : String
  noteText : String
  outcome : NoteOutcome := .neutral
  createdAt : Nat := 0
deriving DecidableEq, Repr

/-- One line submitted to the Kroger cart
(`{"upc": …, "quantity": int(...)}` in execute_add_to_kroger_cart). -/
structure CartLine where
  upc : String
  quantity : Int
deriving DecidableEq, Repr

/-- The database state seen by one tool invocation: each table as a list
of rows in insertion order, the autoincrement counters, the wall clock
(`now` for `datetime.utcnow()`, `today` for `date.today()`), and the
lines shipped to the Kroger cart API (`cartSubmissions` records each
`add_items_to_cart` call so "nothing was submitted" is statable). -/
structure DB where
  ingredients : List Ingredient := []
  nextIngredientId : Nat := 1
  lists : List ShoppingListRow := []
  nextListId : Nat := 1
  items : List ItemRow := []
  nextItemId : Nat := 1
  mealPlans : List MealPlanRow := []
  nextPlanId : Nat := 1
  recipes : List RecipeRow := []
  recipeIngredients : List RecipeIngredientRow := []
  pantry : List PantryRow := []
  recipeNotes : List RecipeNoteRow := []
  cartSubmissions : List (List CartLine) := []
  now : Nat := 0
  today : Nat := 0
deriving DecidableEq, Repr

/-! ## Query helpers shared by the tool handlers (src/app/tools.py) -/

/-- `query(ShoppingList).filter(status == ACTIVE).first()`. -/
def findActiveList (db : DB) : Option ShoppingListRow :=
  db.lists.find? (fun l => l.status == .active)

/-- `_get_or_create_active_list` (tools.py 744–755): return the active
list, creating a fresh empty one when none exists. -/
def getOrCreateActiveList (db : DB) : DB × ShoppingListRow :=
  match findActiveList db with
  | some l => (db, l)
  | none =>
    let l : ShoppingListRow := { id := db.nextListId, status := .active }
    ({ db with lists := db.lists ++ [l], nextListId := db.nextListId + 1 }, l)

/-- `query(MealPlan).filter(status == PLANNING).order_by(created_at.desc()).first()`:
the planning-status plan with the greatest `createdAt` (first row wins
ties). -/
def findPlanningPlan (db : DB) : Option MealPlanRow :=
  (db.mealPlans.filter (fun p => p.status == .planning)).foldl
    (fun acc p =>
      match acc with
      | none => some p
      | some q => if p.createdAt > q.createdAt then some p else some q)
    none

/-- The `while True` search in `_get_or_create_active_meal_plan` for the
first week-start date not already used by a plan, starting from
`date.today()`.  Fuel bounds the recursion; `mealPlans.length + 1`
candidate dates always contain an unused one, so the fuel never runs
out on the calls the embedding makes. -/
def findFreeWeekStart (db : DB) : Nat → Nat → Nat
  | start, 0 => start
  | start, fuel + 1 =>
    if db.mealPlans.any (fun p => p.weekStartDate == start) then
      findFreeWeekStart db (start + 1) fuel
    else
      start

/-- `_get_or_create_active_meal_plan` (tools.py 758–785). -/
def getOrCreateActivePlan (db : DB) : DB × MealPlanRow :=
  match findPlanningPlan db with
  | some p => (db, p)
  | none =>
    let start := findFreeWeekStart db db.today (db.mealPlans.length + 1)
    let p : MealPlanRow :=
      { id := db.nextPlanId, weekStartDate := start, meals := some [],
        status := .planning, createdAt := db.now }
    ({ db with mealPlans := db.mealPlans ++ [p], nextPlanId := db.nextPlanId + 1 }, p)

/-- Ingredient row lookup by primary key (ORM relationship access). -/
def findIngredient (db : DB) (iid : Nat) : Option Ingredient :=
  db.ingredients.find? (fun i => i.id == iid)

/-- `item.ingredient.name` via the relationship.  The `ingredient_id`
foreign key is non-nullable and schema-enforced, so on states
satisfying referential integrity (assumed by every theorem that needs
this helper) the lookup succeeds; the `""` default is unreachable
there. -/
def ingredientName (db : DB) (iid : Nat) : String :=
  match findIngredient db iid with
  | some i => i.name
  | none => ""

/-- `item.ingredient.normalized_name` via the relationship (same
referential-integrity remark as `ingredientName`). -/
def ingredientNorm (db : DB) (iid : Nat) : String :=
  match findIngredient db iid with
  | some i => i.normalizedName
  | none => ""

/-- In-place column mutation of a fetched shopping-list row. -/
def updateListRow (db : DB) (lid : Nat) (f : ShoppingListRow → ShoppingListRow) : DB :=
  { db with lists := db.lists.map (fun l => if l.id == lid then f l else l) }

/-- In-place column mutation of a fetched shopping-list item. -/
def updateItemRow (db : DB) (iid : Nat) (f : ItemRow → ItemRow) : DB :=
  { db with items := db.items.map (fun x => if x.id == iid then f x else x) }

/-- In-place column mutation of a fetched ingredient. -/
def updateIngredientRow (db : DB) (iid : Nat) (f : Ingredient → Ingredient) : DB :=
  { db with ingredients := db.ingredients.map (fun i => if i.id == iid then f i else i) }

/-- In-place column mutation of a fetched meal plan. -/
def updatePlanRow (db : DB) (pid : Nat) (f : MealPlanRow → MealPlanRow) : DB :=
  { db with mealPlans := db.mealPlans.map (fun p => if p.id == pid then f p else p) }

/-- Alias-match predicate of `_get_or_create_ingredient` (tools.py
723–730): the Python guard `if ing.aliases and normalized in
[normalize_ingredient_name(a) for a in ing.aliases]` requires a
non-null, non-empty alias list containing the normalized name. -/
def aliasMatches (n : String) (ing : Ingredient) : Bool :=
  match ing.aliases with
  | some as => !as.isEmpty && (as.map normalize_ingredient_name).contains n
  | none => false

/-- `_get_or_create_ingredient` (tools.py 711–741): exact
normalized-name match first, then alias match, otherwise create. -/
def getOrCreateIngredient (name : String) (db : DB) : DB × Ingredient :=
  let n := normalize_ingredient_name name
  match db.ingredients.find? (fun i => i.normalizedName == n) with
  | some ing => (db, ing)
  | none =>
    match db.ingredients.find? (aliasMatches n) with
    | some ing => (db, ing)
    | none =>
      let ing : Ingredient := { id := db.nextIngredientId, name := name, normalizedName := n }
      ({ db with ingredients := db.ingredients ++ [ing],
                 nextIngredientId := db.nextIngredientId + 1 }, ing)

/-! ## Tool results (the success / error dicts of src/app/tools.py) -/

/-- Result dict of `execute_add_item`. -/
inductive AddItemOut where
  | ok (itemId ingredientId : Nat) (name : String)
      (preferredBrand krogerProductId purchaseSource : Option String)
      (hasKrogerMapping needsKrogerResolution : Bool)
  | err (msg : String)
deriving DecidableEq, Repr

/-- Result dict of `execute_remove_item`. -/
inductive RemoveItemOut where
  | ok (removed : String)
  | err (msg : String)
deriving DecidableEq, Repr

/-- Result dict of `execute_update_item`. -/
inductive UpdateItemOut where
  | ok (itemId : Nat) (name : String) (quantity : Option Rat) (unit : Option String)
  | err (msg : String)
deriving DecidableEq, Repr

/-- Result dict of `execute_clear_list`. -/
inductive ClearListOut where
  | ok (itemsRemoved : Nat)
  | err (msg : String)
deriving DecidableEq, Repr

/-- Result dict of `execute_finalize_order`. -/
inductive FinalizeOut where
  | ok (itemsOrdered newListId : Nat)
  | err (msg : String)
deriving DecidableEq, Repr

/-- Result dict of `execute_add_meal`. -/
inductive AddMealOut where
  | ok (mealName : String) (planId : Nat)
  | err (msg : String)
deriving DecidableEq, Repr

/-- Result dict of `execute_remove_meal`. -/
inductive RemoveMealOut where
  | ok (removed : String)
  | err (msg : String)
deriving DecidableEq, Repr

/-- Result dict of `execute_complete_meal_plan`. -/
inductive CompletePlanOut where
  | ok (planId : Nat)
  | err (msg : String)
deriving DecidableEq, Repr

/-- Result dict of `execute_generate_list_from_meals`. -/
inductive GenerateOut where
  | ok (itemsAdded : Nat) (skippedExisting skippedPantry : List String)
  | err (msg : String)
deriving DecidableEq, Repr

/-- Result dict of `execute_check_off_item`. -/
inductive CheckOffOut where
  | ok (name : String) (checkedOff : Bool)
  | err (msg : String)
deriving DecidableEq, Repr

/-- Result dict of `execute_confirm_kroger_product`. -/
inductive ConfirmOut where
  | ok (ingredientId : Nat) (name krogerProductId : String)
      (brand size : Option String) (price : Option Rat)
  | err (msg : String)
deriving DecidableEq, Repr

/-- One entry of the `ingredients` array returned by
`execute_get_ingredients` (tools.py 898–908).  The dict carries id,
name, preferred_brand, preferred_size, kroger_product_id and category
— and no price field. -/
structure IngredientOut where
  id : Nat
  name : String
  preferredBrand : Option String
  preferredSize : Option String
  krogerProductId : Option String
  category : Option String
deriving DecidableEq, Repr

/-- Result dict of `execute_get_ingredients`. -/
structure GetIngredientsOut where
  ingredients : List IngredientOut
  count : Nat
deriving DecidableEq, Repr

/-- Result dict of `execute_add_to_kroger_cart`.  `errUnresolved` is the
`{"error": "unresolved_items", "unresolved": …, "resolved_count": …}`
dict. -/
inductive CartOut where
  | ok (itemsAdded : Nat) (listArchived : Bool) (skippedNonKroger : List (String × String))
  | errUnresolved (unresolved : List String) (resolvedCount : Nat)
  | err (msg : String)
deriving DecidableEq, Repr

/-! ## Write tool handlers (src/app/tools.py) -/

/-- Parameters of `add_item` after the handler's own coercions: `name`
and `added_by` stripped strings, `quantity` the float the handler
derives (`params.get("quantity", 1)` with failed conversions replaced
by 1; an explicit JSON null stays `None`), `unit` with empty strings
already collapsed to `None`. -/
structure AddItemParams where
  name : String
  addedBy : String
  quantity : Option Rat := some 1
  unit : Option String := none
deriving DecidableEq, Repr

/-- `execute_add_item` (tools.py 1098–1146): resolve or create the
ingredient, lazily create the active list, append a new item row and
report the ingredient's Kroger-mapping state. -/
def execute_add_item (p : AddItemParams) (db : DB) : DB × AddItemOut :=
  let (db1, ing) := getOrCreateIngredient p.name db
  let (db2, lst) := getOrCreateActiveList db1
  let item : ItemRow :=
    { id := db2.nextItemId, shoppingListId := lst.id, ingredientId := ing.id,
      quantity := p.quantity, unit := p.unit, addedBy := p.addedBy, addedAt := db2.now }
  let db3 := { db2 with items := db2.items ++ [item], nextItemId := db2.nextItemId + 1 }
  (db3,
   .ok item.id ing.id ing.name ing.preferredBrand ing.krogerProductId ing.purchaseSource
     ing.krogerProductId.isSome
     (ing.krogerProductId.isNone && ing.purchaseSource.isNone))

/-- The row predicate of the `query(ShoppingListItem).join(Ingredient)
.filter(list_id, normalized_name.contains(normalized))` lookup: the
item belongs to the given list and its (inner-joined) ingredient's
normalized name contains the normalized search string. -/
def itemNamePred (db : DB) (listId : Nat) (normalized : String) (it : ItemRow) : Bool :=
  it.shoppingListId == listId &&
    match findIngredient db it.ingredientId with
    | some ing => strContains ing.normalizedName normalized
    | none => false

/-- The `….first()` lookup shared by remove_item, update_item and
check_off_item (tools.py 1159–1167, 1193–1201, 1949–1957): first item
of the active list matching `itemNamePred`. -/
def findItemByName (db : DB) (listId : Nat) (normalized : String) : Option ItemRow :=
  db.items.find? (itemNamePred db listId normalized)

/-- `execute_remove_item` (tools.py 1149–1180). -/
def execute_remove_item (name : String) (db : DB) : DB × RemoveItemOut :=
  let normalized := normalize_ingredient_name name
  let (db1, lst) := getOrCreateActiveList db
  match findItemByName db1 lst.id normalized with
  | none => (db1, .err ("Item \x27" ++ name ++ "\x27 not found on the shopping list."))
  | some item =>
    let removedName := ingredientName db1 item.ingredientId
    ({ db1 with items := db1.items.filter (fun x => x.id != item.id) }, .ok removedName)

/-- Parameters of `update_item` (quantity already float-converted;
failed conversions leave the column untouched, embedded as `none`). -/
structure UpdateItemParams where
  itemName : String
  quantity : Option Rat := none
  unit : Option String := none
deriving DecidableEq, Repr

/-- `execute_update_item` (tools.py 1183–1229). -/
def execute_update_item (p : UpdateItemParams) (db : DB) : DB × UpdateItemOut :=
  let normalized := normalize_ingredient_name p.itemName
  let (db1, lst) := getOrCreateActiveList db
  match findItemByName db1 lst.id normalized with
  | none => (db1, .err ("Item \x27" ++ p.itemName ++ "\x27 not found on the shopping list."))
  | some item =>
    let q := match p.quantity with | some v => some v | none => item.quantity
    let u := match p.unit with
      | some s => if s = "" then item.unit else some s
      | none => item.unit
    let db2 := updateItemRow db1 item.id (fun x => { x with quantity := q, unit := u })
    (db2, .ok item.id (ingredientName db1 item.ingredientId) q u)

/-- `execute_clear_list` (tools.py 1232–1247). -/
def execute_clear_list (db : DB) : DB × ClearListOut :=
  let (db1, lst) := getOrCreateActiveList db
  let removed := (db1.items.filter (fun x => x.shoppingListId == lst.id)).length
  ({ db1 with items := db1.items.filter (fun x => x.shoppingListId != lst.id) },
   .ok removed)

/-- The two archiving assignments shared verbatim by
`execute_finalize_order` (tools.py 1266–1267) and
`execute_add_to_kroger_cart` (tools.py 1926–1927):
`status = ORDERED; ordered_at = utcnow()`. -/
def archiveListRow (now : Nat) (l : ShoppingListRow) : ShoppingListRow :=
  { l with status := .ordered, orderedAt := some now }

/-- `execute_finalize_order` (tools.py 1250–1278): reject an empty
active list with an error dict; otherwise mark the active list ordered
with a timestamp and create a fresh empty active list. -/
def execute_finalize_order (db : DB) : DB × FinalizeOut :=
  let (db1, lst) := getOrCreateActiveList db
  let itemCount := (db1.items.filter (fun x => x.shoppingListId == lst.id)).length
  if itemCount = 0 then
    (db1, .err "Shopping list is empty - nothing to order.")
  else
    let db2 := updateListRow db1 lst.id (archiveListRow db1.now)
    let newList : ShoppingListRow := { id := db2.nextListId, status := .active }
    ({ db2 with lists := db2.lists ++ [newList], nextListId := db2.nextListId + 1 },
     .ok itemCount newList.id)

/-- Parameters of `add_meal` (recipe_id already int-converted; notes
stripped, absent or empty collapsed to `none` by the `if params.get`
guards). -/
structure AddMealParams where
  mealName : String
  recipeId : Option Nat := none
  notes : Option String := none
deriving DecidableEq, Repr

/-- `execute_add_meal` (tools.py 1431–1460): append a meal entry to the
lazily-created planning meal plan. -/
def execute_add_meal (p : AddMealParams) (db : DB) : DB × AddMealOut :=
  let (db1, plan) := getOrCreateActivePlan db
  let entry : MealEntry :=
    { mealName := p.mealName, recipeId := p.recipeId, notes := p.notes, addedAt := db1.now }
  let db2 := updatePlanRow db1 plan.id
    (fun q => { q with meals := some ((q.meals.getD []) ++ [entry]) })
  (db2, .ok p.mealName plan.id)

/-- `execute_remove_meal` (tools.py 1463–1489): drop every meal whose
name matches case-insensitively; error when there is no planning plan,
no meals, or no match. -/
def execute_remove_meal (name : String) (db : DB) : DB × RemoveMealOut :=
  match findPlanningPlan db with
  | none => (db, .err "No active meal plan or no meals to remove.")
  | some plan =>
    match plan.meals with
    | none => (db, .err "No active meal plan or no meals to remove.")
    | some meals =>
      if meals.isEmpty then
        (db, .err "No active meal plan or no meals to remove.")
      else
        let target := (name.trim.data.map Char.toLower)
        let remaining := meals.filter (fun m => (m.mealName.data.map Char.toLower) ≠ target)
        if remaining.length = meals.length then
          (db, .err ("Meal \x27" ++ name ++ "\x27 not found in the plan."))
        else
          (updatePlanRow db plan.id (fun q => { q with meals := some remaining }),
           .ok name)

/-- `execute_complete_meal_plan` (tools.py 1573–1593). -/
def execute_complete_meal_plan (db : DB) : DB × CompletePlanOut :=
  match findPlanningPlan db with
  | none => (db, .err "No active meal plan to complete.")
  | some plan =>
    (updatePlanRow db plan.id (fun q => { q with status := .completed }), .ok plan.id)

/-- `execute_check_off_item` (tools.py 1941–1969): locate the first
matching item on the active list and toggle its `checked_off` flag. -/
def execute_check_off_item (name : String) (db : DB) : DB × CheckOffOut :=
  let normalized := normalize_ingredient_name name
  let (db1, lst) := getOrCreateActiveList db
  match findItemByName db1 lst.id normalized with
  | none => (db1, .err ("Item \x27" ++ name ++ "\x27 not found on the shopping list."))
  | some item =>
    let db2 := updateItemRow db1 item.id (fun x => { x with checkedOff := !x.checkedOff })
    (db2, .ok (ingredientName db1 item.ingredientId) (!item.checkedOff))

/-- Parameters of `confirm_kroger_product` after the handler's own
coercions (`brand`/`size` stripped with empty collapsed to `None`,
`price` float-converted with failures dropped). -/
structure ConfirmParams where
  ingredientName : String
  krogerProductId : String
  brand : Option String := none
  size : Option String := none
  price : Option Rat := none
deriving DecidableEq, Repr

/-- The column assignments of `execute_confirm_kroger_product`
(tools.py 1845–1854): always store the product id; store brand, size
and price only when provided (truthy / convertible). -/
def confirmUpd (p : ConfirmParams) (i : Ingredient) : Ingredient :=
  let i1 := { i with krogerProductId := some p.krogerProductId }
  let i2 := match p.brand with | some b => { i1 with preferredBrand := some b } | none => i1
  let i3 := match p.size with | some s => { i2 with preferredSize := some s } | none => i2
  match p.price with | some pr => { i3 with lastKnownPrice := some pr } | none => i3

/-- `execute_confirm_kroger_product` (tools.py 1834–1870): resolve or
create the ingredient and persist the chosen product id, brand, size
and price onto it. -/
def execute_confirm_kroger_product (p : ConfirmParams) (db : DB) : DB × ConfirmOut :=
  let (db1, ing) := getOrCreateIngredient p.ingredientName db
  let db2 := updateIngredientRow db1 ing.id (confirmUpd p)
  let after := confirmUpd p ing
  (db2, .ok ing.id ing.name p.krogerProductId after.preferredBrand after.preferredSize
          after.lastKnownPrice)

/-! ## Read tools: get_ingredients and get_recipes (src/app/tools.py) -/

/-- Parameters of `get_ingredients`. -/
structure GetIngredientsParams where
  name : Option String := none
  hasKrogerId : Option Bool := none
deriving DecidableEq, Repr

/-- `execute_get_ingredients` (tools.py 881–910): filter by normalized
substring and Kroger-resolution state, order by name, limit 50, and
project each row to the result dict — which carries no price field. -/
def execute_get_ingredients (p : GetIngredientsParams) (db : DB) : GetIngredientsOut :=
  let q1 : List Ingredient := match p.name with
    | some nf =>
      if nf = "" then db.ingredients
      else
        let n := normalize_ingredient_name nf
        db.ingredients.filter (fun i => strContains i.normalizedName n)
    | none => db.ingredients
  let q2 : List Ingredient := match p.hasKrogerId with
    | some true => q1.filter (fun i => i.krogerProductId.isSome)
    | some false => q1.filter (fun i => i.krogerProductId.isNone)
    | none => q1
  let sorted := sortBy (fun a b : Ingredient => !(decide (b.name < a.name))) q2
  let outs := (sorted.take 50).map (fun i =>
    { id := i.id, name := i.name, preferredBrand := i.preferredBrand,
      preferredSize := i.preferredSize, krogerProductId := i.krogerProductId,
      category := i.category : IngredientOut })
  { ingredients := outs, count := outs.length }

/-- The Python exceptions the embedded `execute_get_recipes` can raise. -/
inductive PyExc where
  /-- `NoteOutcome.SUCCESS` in tools.py line 961: the `NoteOutcome` enum
  (models/recipe_notes.py) has members BETTER / WORSE / NEUTRAL only,
  so evaluating the attribute raises `AttributeError`. -/
  | attributeErrorNoteOutcomeSuccess
  /-- `latest.added_by` in tools.py line 967: `RecipeNote` has a
  `user` column and no `added_by` attribute. -/
  | attributeErrorAddedBy
deriving DecidableEq, Repr

/-- `any(n.outcome == NoteOutcome.SUCCESS for n in notes)` (tools.py
line 961).  `any` over an empty generator never evaluates its body, so
the broken `NoteOutcome.SUCCESS` reference raises only when at least
one note exists. -/
def hasPositiveNotes (notes : List RecipeNoteRow) : Except PyExc Bool :=
  match notes with
  | [] => .ok false
  | _ :: _ => .error .attributeErrorNoteOutcomeSuccess

/-- The `latest_note` dict (tools.py 962–970): built only when notes
exist, in which case `latest.added_by` raises `AttributeError` (this
line is never reached at runtime because line 961 raises first; both
paths raise). -/
structure LatestNoteOut where
  title : Option String
  outcome : Option String
  user : String
deriving DecidableEq, Repr

/-- `latest_note` construction (tools.py 962–970), see `LatestNoteOut`. -/
def latestNoteSummary (notes : List RecipeNoteRow) :
    Except PyExc (Option LatestNoteOut) :=
  match notes with
  | [] => .ok none
  | _ :: _ => .error .attributeErrorAddedBy

/-- One ingredient entry in a `get_recipes` result (tools.py 934–942). -/
structure RecipeIngredientOut where
  name : String
  quantity : Option Rat
  unit : Option String
  prepNotes : Option String
deriving DecidableEq, Repr

/-- One recipe dict in a `get_recipes` result (tools.py 944–970). -/
structure RecipeData where
  id : Nat
  name : String
  ingredients : List RecipeIngredientOut
  instructions : Option String
  cuisine : Option String
  tags : Option (List String)
  noteCount : Nat
  hasPositive : Bool
  latestNote : Option LatestNoteOut
deriving DecidableEq, Repr

/-- Result dict of `execute_get_recipes`. -/
structure GetRecipesOut where
  recipes : List RecipeData
  count : Nat
deriving DecidableEq, Repr

/-- Parameters of `get_recipes`. -/
structure GetRecipesParams where
  name : Option String := none
  cuisine : Option String := none
  limit : Nat := 20
  tags : Option String := none
deriving DecidableEq, Repr

/-- Lowercase a string (Python `str.lower()` on the ASCII range). -/
def lowerStr (s : String) : String :=
  ⟨s.data.map Char.toLower⟩

/-- SQL `ilike('%pat%')`: case-insensitive substring. -/
def ilikeContains (hay pat : String) : Bool :=
  strContains (lowerStr hay) (lowerStr pat)

/-- Notes of one recipe ordered by `created_at` descending (tools.py
953–958). -/
def notesForRecipe (db : DB) (rid : Nat) : List RecipeNoteRow :=
  sortBy (fun a b : RecipeNoteRow => decide (b.createdAt ≤ a.createdAt))
    (db.recipeNotes.filter (fun n => n.recipeId == some rid))

/-- The recipes matched by the `get_recipes` query (tools.py 916–924):
name / cuisine filters, ordered by `updated_at` descending, limited. -/
def matchedRecipes (p : GetRecipesParams) (db : DB) : List RecipeRow :=
  let q1 := match p.name with
    | some nf => if nf = "" then db.recipes
                 else db.recipes.filter (fun r => ilikeContains r.name nf)
    | none => db.recipes
  let q2 := match p.cuisine with
    | some cf => if cf = "" then q1
                 else q1.filter (fun r =>
                   match r.cuisine with
                   | some c => ilikeContains c cf
                   | none => false)
    | none => q1
  (sortBy (fun a b : RecipeRow => decide (b.updatedAt ≤ a.updatedAt)) q2).take p.limit

/-- The tag filter applied inside the loop body (tools.py 972–977):
keep the recipe unless a truthy tag filter matches no tag
(case-insensitive substring against each tag). -/
def tagFilterKeeps (p : GetRecipesParams) (r : RecipeRow) : Bool :=
  match p.tags with
  | some tf =>
    if tf = "" then true
    else ((r.tags.getD []).map lowerStr).any (fun t => strContains t (lowerStr tf))
  | none => true

/-- The per-recipe loop of `execute_get_recipes` (tools.py 927–979):
for each matched recipe build the ingredient list, count its notes, and
evaluate the notes summary — which raises as soon as a recipe has at
least one note. -/
def getRecipesLoop (p : GetRecipesParams) (db : DB) :
    List RecipeRow → Except PyExc (List RecipeData)
  | [] => .ok []
  | r :: rs => do
    let ris := db.recipeIngredients.filter (fun ri => ri.recipeId == r.id)
    let ings := ris.map (fun ri =>
      { name := ingredientName db ri.ingredientId, quantity := ri.quantity,
        unit := ri.unit, prepNotes := ri.prepNotes : RecipeIngredientOut })
    let notes := notesForRecipe db r.id
    let hp ← hasPositiveNotes notes
    let ln ← latestNoteSummary notes
    let rdata : RecipeData :=
      { id := r.id, name := r.name, ingredients := ings,
        instructions := r.instructions, cuisine := r.cuisine, tags := r.tags,
        noteCount := notes.length, hasPositive := hp, latestNote := ln }
    let rest ← getRecipesLoop p db rs
    .ok (if tagFilterKeeps p r then rdata :: rest else rest)

/-- `execute_get_recipes` (tools.py 913–982).  Read tools carry no
`try/except`, so the `AttributeError` propagates out of the handler. -/
def execute_get_recipes (p : GetRecipesParams) (db : DB) :
    Except PyExc GetRecipesOut := do
  let rs ← getRecipesLoop p db (matchedRecipes p db)
  .ok { recipes := rs, count := rs.length }

/-- What the dispatcher returns for a `get_recipes` call. -/
inductive GetRecipesDispatch where
  | ok (out : GetRecipesOut)
  /-- The `{"error": f"{tool_name} failed: …", "TOOL_ERROR": True}` dict
  of `execute_tool` (tools.py 2457–2463). -/
  | toolError (msg : String)
deriving DecidableEq, Repr

/-- `execute_tool` dispatch of a `get_recipes` call (tools.py
2443–2464): the handler exception is caught, the session rolled back
(a no-op here — the read handler wrote nothing), and a structured
TOOL_ERROR dict returned instead of recipe data. -/
def execute_tool_get_recipes (p : GetRecipesParams) (db : DB) :
    DB × GetRecipesDispatch :=
  match execute_get_recipes p db with
  | .ok out => (db, .ok out)
  | .error _ => (db, .toolError "get_recipes failed: AttributeError")

/-! ## generate_list_from_meals (src/app/tools.py 1492–1570) -/

/-- Accumulator of the double loop in `execute_generate_list_from_meals`:
the (session-visible) item table being extended, the autoincrement
counter, the `existing_ids` dedup set, and the three reported outputs. -/
structure GenAcc where
  items : List ItemRow
  nextItemId : Nat
  existingIds : List Nat
  added : Nat
  skippedExisting : List String
  skippedPantry : List String
deriving DecidableEq, Repr

/-- Body of the inner `for ri in recipe_ings` loop (tools.py
1536–1558): skip (and report) ingredients already on the list, then
those whose normalized name is a pantry name, and add the rest. -/
def genStep (db : DB) (listId now : Nat) (pantryNames : List String) (rid : Nat)
    (acc : GenAcc) (ri : RecipeIngredientRow) : GenAcc :=
  if acc.existingIds.contains ri.ingredientId then
    { acc with skippedExisting := acc.skippedExisting ++ [ingredientName db ri.ingredientId] }
  else if pantryNames.contains (ingredientNorm db ri.ingredientId) then
    { acc with skippedPantry := acc.skippedPantry ++ [ingredientName db ri.ingredientId] }
  else
    let item : ItemRow :=
      { id := acc.nextItemId, shoppingListId := listId, ingredientId := ri.ingredientId,
        quantity := ri.quantity, unit := ri.unit, addedBy := "meal plan",
        addedAt := now, fromRecipeId := some rid }
    { acc with items := acc.items ++ [item], nextItemId := acc.nextItemId + 1,
               existingIds := acc.existingIds ++ [ri.ingredientId],
               added := acc.added + 1 }

/-- Body of the outer `for meal in plan.meals` loop (tools.py
1525–1534): meals without a linked recipe are skipped (`if not
recipe_id: continue`; recipe ids are positive, so only a missing link
is falsy). -/
def genMealStep (db : DB) (listId now : Nat) (pantryNames : List String)
    (acc : GenAcc) (meal : MealEntry) : GenAcc :=
  match meal.recipeId with
  | none => acc
  | some rid =>
    (db.recipeIngredients.filter (fun ri => ri.recipeId == rid)).foldl
      (genStep db listId now pantryNames rid) acc

/-- The initial accumulator of the generate loop (tools.py 1507–1523):
the session item table, the autoincrement counter, the `existing_ids`
set seeded from the active list, and empty report lists. -/
def genAcc0 (db : DB) (listId : Nat) : GenAcc :=
  { items := db.items, nextItemId := db.nextItemId,
    existingIds := (db.items.filter (fun it => it.shoppingListId == listId)).map
      (fun it => it.ingredientId),
    added := 0, skippedExisting := [], skippedPantry := [] }

/-- The pantry-name set (tools.py 1516–1519). -/
def genPantryNames (db : DB) : List String :=
  db.pantry.map (fun pr => normalize_ingredient_name pr.itemName)

/-- The full double loop of `execute_generate_list_from_meals`
(tools.py 1525–1558). -/
def genFinal (db : DB) (listId : Nat) (meals : List MealEntry) : GenAcc :=
  meals.foldl (genMealStep db listId db.now (genPantryNames db)) (genAcc0 db listId)

/-- `execute_generate_list_from_meals` (tools.py 1492–1570). -/
def execute_generate_list_from_meals (db : DB) : DB × GenerateOut :=
  match findPlanningPlan db with
  | none => (db, .err "No active meal plan or no meals planned.")
  | some plan =>
    match plan.meals with
    | none => (db, .err "No active meal plan or no meals planned.")
    | some meals =>
      if meals.isEmpty then
        (db, .err "No active meal plan or no meals planned.")
      else
        let (db1, lst) := getOrCreateActiveList db
        let acc := genFinal db1 lst.id meals
        ({ db1 with items := acc.items, nextItemId := acc.nextItemId },
         .ok acc.added acc.skippedExisting acc.skippedPantry)

/-! ## add_to_kroger_cart (src/app/tools.py 1873–1938) -/

/-- `int(item.quantity or 1)`: a null or zero quantity becomes 1;
otherwise the float is truncated to an integer (the embedding floors,
which agrees with Python `int()` on the non-negative quantities the
tools store). -/
def cartQuantity (q : Option Rat) : Int :=
  match q with
  | some v => if v = 0 then 1 else v.floor
  | none => 1

/-- One iteration of the classification loop of
`execute_add_to_kroger_cart` (tools.py 1900–1914): an item whose
ingredient has a truthy purchase source is skipped, one with a truthy
Kroger product id is collected for the cart, the rest are unresolved.
The accumulator is (resolved cart lines, unresolved names,
skipped-non-Kroger name/source pairs). -/
def cartStep (acc : List CartLine × List String × List (String × String))
    (pair : ItemRow × Ingredient) :
    List CartLine × List String × List (String × String) :=
  if pyStrTruthy pair.2.purchaseSource then
    (acc.1, acc.2.1, acc.2.2 ++ [(pair.2.name, pair.2.purchaseSource.getD "")])
  else if pyStrTruthy pair.2.krogerProductId then
    (acc.1 ++ [{ upc := pair.2.krogerProductId.getD "",
                 quantity := cartQuantity pair.1.quantity : CartLine }],
     acc.2.1, acc.2.2)
  else
    (acc.1, acc.2.1 ++ [pair.2.name], acc.2.2)

/-- The classification loop of `execute_add_to_kroger_cart` (tools.py
1897–1914) over the (joined) active-list items. -/
def cartClassify (pairs : List (ItemRow × Ingredient)) :
    List CartLine × List String × List (String × String) :=
  pairs.foldl cartStep ([], [], [])

/-- The `query(ShoppingListItem).join(Ingredient).filter(list_id)` rows
(tools.py 1887–1892): active-list items inner-joined with their
ingredient rows. -/
def joinedActiveItems (db : DB) (listId : Nat) : List (ItemRow × Ingredient) :=
  (db.items.filter (fun it => it.shoppingListId == listId)).filterMap
    (fun it => (findIngredient db it.ingredientId).map (fun ing => (it, ing)))

/-- `execute_add_to_kroger_cart` (tools.py 1873–1938).  The external
collaborators are passed as booleans: `configured` / `authenticated`
for the kroger_service guards, `cartSuccess` for the
`add_items_to_cart` return value.  Submitting to the cart appends the
lines to `cartSubmissions`. -/
def execute_add_to_kroger_cart (configured authenticated cartSuccess : Bool)
    (db : DB) : DB × CartOut :=
  if !configured then
    (db, .err "Kroger integration is not configured.")
  else if !authenticated then
    (db, .err "not_authenticated")
  else
    let (db1, lst) := getOrCreateActiveList db
    let joined := joinedActiveItems db1 lst.id
    if joined.isEmpty then
      (db1, .err "Shopping list is empty.")
    else
      let cls := cartClassify joined
      if !cls.2.1.isEmpty then
        (db1, .errUnresolved cls.2.1 cls.1.length)
      else
        let db2 := { db1 with cartSubmissions := db1.cartSubmissions ++ [cls.1] }
        if cartSuccess then
          (updateListRow db2 lst.id (archiveListRow db2.now),
           .ok cls.1.length true cls.2.2)
        else
          (db2, .err "Failed to add items to Kroger cart.")

/-! ## Sequential tool execution (for the singleton invariants) -/

/-- One tool invocation, with the handler parameters (and, for the cart
tool, the external collaborator outcomes) attached. -/
inductive Op where
  | addItem (p : AddItemParams)
  | removeItem (name : String)
  | updateItem (p : UpdateItemParams)
  | clearList
  | finalizeOrder
  | addMeal (p : AddMealParams)
  | removeMeal (name : String)
  | completeMealPlan
  | generateListFromMeals
  | checkOffItem (name : String)
  | confirmKrogerProduct (p : ConfirmParams)
  | addToKrogerCart (configured authenticated cartSuccess : Bool)
  | getIngredients (p : GetIngredientsParams)
  | getRecipes (p : GetRecipesParams)
deriving DecidableEq, Repr

/-- The state transformation of one tool invocation (result dict
discarded).  `get_ingredients` is a pure read; `get_recipes` goes
through the dispatcher, whose exception path rolls the session back. -/
def applyOp (op : Op) (db : DB) : DB :=
  match op with
  | .addItem p => (execute_add_item p db).1
  | .removeItem name => (execute_remove_item name db).1
  | .updateItem p => (execute_update_item p db).1
  | .clearList => (execute_clear_list db).1
  | .finalizeOrder => (execute_finalize_order db).1
  | .addMeal p => (execute_add_meal p db).1
  | .removeMeal name => (execute_remove_meal name db).1
  | .completeMealPlan => (execute_complete_meal_plan db).1
  | .generateListFromMeals => (execute_generate_list_from_meals db).1
  | .checkOffItem name => (execute_check_off_item name db).1
  | .confirmKrogerProduct p => (execute_confirm_kroger_product p db).1
  | .addToKrogerCart c a s => (execute_add_to_kroger_cart c a s db).1
  | .getIngredients _ => db
  | .getRecipes p => (execute_tool_get_recipes p db).1

/-- Sequential execution of a list of tool invocations. -/
def runOps (ops : List Op) (db : DB) : DB :=
  ops.foldl (fun d op => applyOp op d) db

/-- Number of ShoppingList rows with active status. -/
def countActive (db : DB) : Nat :=
  (db.lists.filter (fun l => l.status == .active)).length

/-- Number of MealPlan rows with planning status. -/
def countPlanning (db : DB) : Nat :=
  (db.mealPlans.filter (fun p => p.status == .planning)).length

/-- The two singleton invariants of §8: at most one active shopping
list and at most one planning-status meal plan. -/
def SingletonInv (db : DB) : Prop :=
  countActive db ≤ 1 ∧ countPlanning db ≤ 1

/-! ## The message-processing path (src/app/slack_handler.py 33–121,
src/app/action_parser.py 68–84 and 1015–1081)

The Claude API call and the regular-expression extractions are external
to the domain logic (network and Python `re`); their outcomes enter the
embedding as explicit data, and everything downstream of them follows
the source line by line. -/

/-- `ConversationStatus` (models/conversations.py). -/
inductive ConvStatus where
  | success
  | parseError
  | apiError
deriving DecidableEq, Repr

/-- The regex-level outcomes for one raw model response:
`responseTag` / `actionsTag` are the (stripped) results of
`extract_between_tags(raw, "response" / "actions")`, `plainText` is
`re.sub(r"<[^>]+>", "", raw).strip()`, `actionsNoop` the
`"<noop/>" in actions_xml` test, `parseActionsRaises` an
`ET.ParseError` from `parse_actions_xml`, and `execException` an
exception escaping the validate/execute/commit phase into the outer
`except` of `process_claude_response` (line 1074). -/
structure ParserEnv where
  responseTag : Option String := none
  actionsTag : Option String := none
  plainText : String := ""
  actionsNoop : Bool := false
  parseActionsRaises : Bool := false
  execException : Bool := false
deriving DecidableEq, Repr

/-- `extract_text_fallback` (action_parser.py 68–84): the `<response>`
tag content if truthy, else the tag-stripped plain text if non-empty,
else `None`. -/
def extract_text_fallback (env : ParserEnv) : Option String :=
  if pyStrTruthy env.responseTag then env.responseTag
  else if env.plainText = "" then none
  else some env.plainText

/-- `process_claude_response` (action_parser.py 1015–1081), text flow:
every return is either a truthy extracted text or a non-empty canned
default (`natural_response or "..."`). -/
def process_claude_response (env : ParserEnv) : String :=
  let naturalResponse : Option String :=
    if pyStrTruthy env.responseTag then env.responseTag
    else extract_text_fallback env
  match env.actionsTag with
  | none => pyStrOr naturalResponse "I understand."
  | some ax =>
    if ax = "" || env.actionsNoop then
      pyStrOr naturalResponse "I understand."
    else if env.parseActionsRaises then
      pyStrOr naturalResponse "I understand, but had trouble processing the action."
    else if env.execException then
      match naturalResponse with
      | some s =>
        if s = "" then pyStrOr (extract_text_fallback env) "Sorry, I had trouble processing that."
        else s
      | none => pyStrOr (extract_text_fallback env) "Sorry, I had trouble processing that."
    else
      pyStrOr naturalResponse "Done."

/-- The Conversation row fields `process_message` fills in
(models/conversations.py; the columns the claim is about). -/
structure ConversationRow where
  user : String
  message : String
  response : Option String
  status : ConvStatus
deriving DecidableEq, Repr

/-- The reply and conversation row `process_message` produces
(slack_handler.py 33–121).  `claudeOk = false` is the Claude API call
raising (network / timeout / rate limit); `parserRaises = true` is
`process_claude_response` itself raising (the handler's defensive
`except` at line 82, which falls back to `extract_text_fallback`). -/
def process_message (claudeOk : Bool) (env : ParserEnv) (parserRaises : Bool)
    (userName messageText : String) : String × ConversationRow :=
  if !claudeOk then
    let resp := "Sorry, I\x27m having trouble thinking right now. Try again in a moment."
    (resp, { user := userName, message := messageText, response := some resp,
             status := .apiError })
  else if parserRaises then
    let resp := pyStrOr (extract_text_fallback env)
      "I understood your message but had trouble processing the action."
    (resp, { user := userName, message := messageText, response := some resp,
             status := .parseError })
  else
    let resp := process_claude_response env
    (resp, { user := userName, message := messageText, response := some resp,
             status := .success })

/-! ## The agentic control loop (spec §4.1)

Modelled from the spec: the agentic tool-use control loop itself — the
caller of `execute_tool` that drives model turns, enforces
`max_tool_turns`, makes the final summary call and substitutes the
fallback / canned responses — is not among the files under src/ (only
its configuration, `Settings.max_tool_turns` in src/app/config.py, and
its tool-dispatch surface, `execute_tool` in src/app/tools.py, are).
The definitions below follow spec §4.1 steps 2–5 and the fallback
construction of §4.1. -/

/-- Modelled from the spec: one model-turn outcome (§4.1 step 2) —
either a final text answer ending the turn, or a set of requested tool
invocations (identified here by their names). -/
inductive ModelTurn where
  | endOfTurn (text : String)
  | toolUse (toolNames : List String)

/-- Modelled from the spec (§4.1 step 5): the canned apology
substituted when even the limit-exhaustion summary call yields no
text. -/
def cannedApology : String :=
  "Sorry, I was unable to finish processing that request."

/-- Modelled from the spec (§4.1 fallback-response construction): when
the final turn yields no text, synthesize a confirmation from the
completed tool names, or the canned apology when no tool completed. -/
def fallbackResponse (completed : List String) : String :=
  if completed.isEmpty then cannedApology
  else "Completed: " ++ String.intercalate ", " completed

/-- Modelled from the spec (§4.1 steps 2–5): the turn loop.  `model n`
is the n-th model call's outcome; `summaryText` is what the one extra
limit-exhaustion summary call produces (`none` = it failed to produce
text); `fuel` is the remaining turn budget; `calls` counts model calls
made so far; `completed` accumulates completed tool names.  Returns
(total model calls, final response text). -/
def agenticLoopAux (model : Nat → ModelTurn) (summaryText : Option String) :
    Nat → Nat → List String → Nat × String
  | 0, calls, _ =>
    (calls + 1,
     match summaryText with
     | some t => if t = "" then cannedApology else t
     | none => cannedApology)
  | fuel + 1, calls, completed =>
    match model calls with
    | .endOfTurn t => (calls + 1, if t = "" then fallbackResponse completed else t)
    | .toolUse names => agenticLoopAux model summaryText fuel (calls + 1) (completed ++ names)

/-- Modelled from the spec (§4.1): process one user message with a turn
budget of `maxTurns` (the configured `max_tool_turns`). -/
def process_user_message (model : Nat → ModelTurn) (summaryText : Option String)
    (maxTurns : Nat) : Nat × String :=
  agenticLoopAux model summaryText maxTurns 0 []

/-- `Settings.max_tool_turns` default (src/app/config.py line 41). -/
def max_tool_turns_default : Nat := 15

/-! ## Helper lemmas -/

theorem pyStrOr_ne_empty (x : Option String) (d : String) (hd : d ≠ "") :
    pyStrOr x d ≠ "" := by
  cases x with
  | none => simpa [pyStrOr] using hd
  | some s =>
    by_cases hs : s = "" <;> simp [pyStrOr, hs, hd]

theorem process_claude_response_ne_empty (env : ParserEnv) :
    process_claude_response env ≠ "" := by
  unfold process_claude_response
  cases env.actionsTag with
  | none => exact pyStrOr_ne_empty _ _ (by decide)
  | some ax =>
    dsimp only
    split
    · exact pyStrOr_ne_empty _ _ (by decide)
    · split
      · exact pyStrOr_ne_empty _ _ (by decide)
      · split
        · split
          · split
            · exact pyStrOr_ne_empty _ _ (by decide)
            · assumption
          · exact pyStrOr_ne_empty _ _ (by decide)
        · exact pyStrOr_ne_empty _ _ (by decide)

theorem fallbackResponse_ne_empty (completed : List String) :
    fallbackResponse completed ≠ "" := by
  unfold fallbackResponse
  split
  · decide
  · intro h
    have hlen := congrArg String.length h
    simp [String.length_append] at hlen
    exact absurd hlen.1 (by decide)

theorem agenticLoopAux_bound_nonempty (model : Nat → ModelTurn)
    (summaryText : Option String) :
    ∀ fuel calls completed,
      (agenticLoopAux model summaryText fuel calls completed).1 ≤ calls + fuel + 1 ∧
      (agenticLoopAux model summaryText fuel calls completed).2 ≠ "" := by
  intro fuel
  induction fuel with
  | zero =>
    intro calls completed
    refine ⟨by simp [agenticLoopAux], ?_⟩
    simp only [agenticLoopAux]
    cases summaryText with
    | none => decide
    | some t =>
      by_cases ht : t = ""
      · simp [ht]
        decide
      · simp [ht]
  | succ n ih =>
    intro calls completed
    cases hm : model calls with
    | endOfTurn t =>
      have hred : agenticLoopAux model summaryText (n + 1) calls completed
          = (calls + 1, if t = "" then fallbackResponse completed else t) := by
        simp [agenticLoopAux, hm]
      rw [hred]
      refine ⟨by omega, ?_⟩
      by_cases ht : t = ""
      · simpa [ht] using fallbackResponse_ne_empty completed
      · simp [ht]
    | toolUse names =>
      have hred : agenticLoopAux model summaryText (n + 1) calls completed
          = agenticLoopAux model summaryText n (calls + 1) (completed ++ names) := by
        simp [agenticLoopAux, hm]
      rw [hred]
      have h := ih (calls + 1) (completed ++ names)
      exact ⟨by omega, h.2⟩

/-! ## C1 -/

/-- C1: for every inbound user message, even against a model that
requests a tool call on every turn and never ends the turn, the
message-processing loop terminates within `maxTurns + 1` model calls
(the configured `max_tool_turns`, default 15) and returns a non-empty
response string — stated for *every* model behaviour, which subsumes
the always-tool-use adversary. -/
theorem turn_bounded_loop_nonempty_response (model : Nat → ModelTurn)
    (summaryText : Option String) (maxTurns : Nat) :
    (process_user_message model summaryText maxTurns).1 ≤ maxTurns + 1 ∧
    (process_user_message model summaryText maxTurns).2 ≠ "" ∧
    max_tool_turns_default = 15 := by
  have h := agenticLoopAux_bound_nonempty model summaryText maxTurns 0 []
  exact ⟨by simpa [process_user_message] using h.1,
         by simpa [process_user_message] using h.2, rfl⟩

/-! ## C7 -/

/-- C7: every processed message yields exactly one non-empty reply; a
model-endpoint exception yields the canned apology and an API-error
conversation status; a parser failure yields a degraded but non-empty
reply with parse-error status — never silence. -/
theorem single_nonempty_reply (claudeOk : Bool) (env : ParserEnv)
    (parserRaises : Bool) (u m : String) :
    (process_message claudeOk env parserRaises u m).1 ≠ "" ∧
    (claudeOk = false →
      (process_message claudeOk env parserRaises u m).1 =
        "Sorry, I\x27m having trouble thinking right now. Try again in a moment." ∧
      (process_message claudeOk env parserRaises u m).2.status = .apiError) ∧
    (claudeOk = true → parserRaises = true →
      (process_message claudeOk env parserRaises u m).2.status = .parseError) := by
  cases claudeOk with
  | false =>
    refine ⟨?_, fun _ => ⟨rfl, rfl⟩, fun h => absurd h (by decide)⟩
    show ("Sorry, I\x27m having trouble thinking right now. Try again in a moment."
      : String) ≠ ""
    decide
  | true =>
    cases parserRaises with
    | false =>
      refine ⟨?_, fun h => absurd h (by decide), fun _ h => absurd h (by decide)⟩
      exact process_claude_response_ne_empty env
    | true =>
      refine ⟨?_, fun h => absurd h (by decide), fun _ _ => rfl⟩
      exact pyStrOr_ne_empty (extract_text_fallback env)
        "I understood your message but had trouble processing the action." (by decide)

/-- Witness for C7 at a concrete input: a failing Claude call on the
empty parser environment produces the apology and the API-error
status. -/
theorem single_nonempty_reply_witness :
    (process_message false {} false "Erich" "add milk").1 =
      "Sorry, I\x27m having trouble thinking right now. Try again in a moment." ∧
    (process_message false {} false "Erich" "add milk").2.status = ConvStatus.apiError := by
  exact (single_nonempty_reply false {} false "Erich" "add milk").2.1 rfl

/-! ## C5 -/

/-- The normalized-name uniqueness invariant of the ingredients table. -/
def NormUnique (db : DB) : Prop :=
  (db.ingredients.map (fun i => i.normalizedName)).Nodup

/-- C5: resolving two raw names with equal normalizations one after the
other yields the same single ingredient record (the second resolution
changes nothing), and uniqueness of `normalized_name` is preserved. -/
theorem ingredient_dedup_unique (db : DB) (a b : String)
    (hu : NormUnique db)
    (hab : normalize_ingredient_name a = normalize_ingredient_name b) :
    (getOrCreateIngredient b (getOrCreateIngredient a db).1).1
      = (getOrCreateIngredient a db).1 ∧
    (getOrCreateIngredient b (getOrCreateIngredient a db).1).2
      = (getOrCreateIngredient a db).2 ∧
    NormUnique (getOrCreateIngredient a db).1 := by
  cases h1 : db.ingredients.find? (fun i => i.normalizedName == normalize_ingredient_name a) with
  | some ing =>
    have hr1 : getOrCreateIngredient a db = (db, ing) := by
      simp [getOrCreateIngredient, h1]
    rw [hr1]
    have hr2 : getOrCreateIngredient b db = (db, ing) := by
      simp [getOrCreateIngredient, ← hab, h1]
    rw [hr2]
    exact ⟨rfl, rfl, hu⟩
  | none =>
    cases h2 : db.ingredients.find? (aliasMatches (normalize_ingredient_name a)) with
    | some ing =>
      have hr1 : getOrCreateIngredient a db = (db, ing) := by
        simp [getOrCreateIngredient, h1, h2]
      rw [hr1]
      have hr2 : getOrCreateIngredient b db = (db, ing) := by
        simp [getOrCreateIngredient, ← hab, h1, h2]
      rw [hr2]
      exact ⟨rfl, rfl, hu⟩
    | none =>
      have hr1 : getOrCreateIngredient a db =
          ({ db with
             ingredients := db.ingredients ++
               [{ id := db.nextIngredientId, name := a,
                  normalizedName := normalize_ingredient_name a }],
             nextIngredientId := db.nextIngredientId + 1 },
           { id := db.nextIngredientId, name := a,
             normalizedName := normalize_ingredient_name a }) := by
        simp [getOrCreateIngredient, h1, h2]
      rw [hr1]
      have hfind : (db.ingredients ++
          [{ id := db.nextIngredientId, name := a,
             normalizedName := normalize_ingredient_name a : Ingredient }]).find?
          (fun i => i.normalizedName == normalize_ingredient_name b) =
          some { id := db.nextIngredientId, name := a,
                 normalizedName := normalize_ingredient_name a } := by
        rw [List.find?_append]
        rw [← hab, h1]
        simp
      refine ⟨?_, ?_, ?_⟩
      · simp [getOrCreateIngredient, hfind]
      · simp [getOrCreateIngredient, hfind]
      · have hnotmem : normalize_ingredient_name a ∉
            db.ingredients.map (fun i => i.normalizedName) := by
          intro hmem
          obtain ⟨i, hi, hin⟩ := List.mem_map.mp hmem
          have := List.find?_eq_none.mp h1 i hi
          simp [hin] at this
        have hforall : ∀ x ∈ db.ingredients, ¬x.normalizedName = normalize_ingredient_name a :=
          fun x hx hxe => hnotmem (List.mem_map.mpr ⟨x, hx, hxe⟩)
        simpa [NormUnique, List.nodup_append] using ⟨hu, hforall⟩

/-- Witness for C5: adding "Whole Milk" then "whole milk!" resolves to
one record in a previously empty table, with uniqueness intact. -/
theorem ingredient_dedup_unique_witness :
    (getOrCreateIngredient "whole milk!"
        (getOrCreateIngredient "Whole Milk" {}).1).2
      = (getOrCreateIngredient "Whole Milk" {}).2 ∧
    NormUnique (getOrCreateIngredient "Whole Milk" {}).1 := by
  have h := ingredient_dedup_unique {} "Whole Milk" "whole milk!"
    (by simp [NormUnique]) (by decide)
  exact ⟨h.2.1, h.2.2⟩

/-! ## C3 -/

/-- C3: finalize-order on an existing active list with zero items
returns the error dict and leaves the state entirely unchanged (no new
list, no status or ordered_at mutation); with at least one item it
archives the active list with the current timestamp and appends a
fresh empty active list. -/
theorem finalize_order_contract (db : DB) (lst : ShoppingListRow)
    (hl : findActiveList db = some lst) :
    ((db.items.filter (fun x => x.shoppingListId == lst.id)).length = 0 →
      execute_finalize_order db =
        (db, .err "Shopping list is empty - nothing to order.")) ∧
    (0 < (db.items.filter (fun x => x.shoppingListId == lst.id)).length →
      (execute_finalize_order db).2 =
        .ok (db.items.filter (fun x => x.shoppingListId == lst.id)).length db.nextListId ∧
      (execute_finalize_order db).1.lists =
        db.lists.map (fun x => if x.id == lst.id then archiveListRow db.now x else x)
          ++ [{ id := db.nextListId, status := .active, orderedAt := none }] ∧
      (execute_finalize_order db).1.items = db.items ∧
      (execute_finalize_order db).1.nextListId = db.nextListId + 1) := by
  have hcr : getOrCreateActiveList db = (db, lst) := by
    simp [getOrCreateActiveList, hl]
  constructor
  · intro h0
    simp [execute_finalize_order, hcr, h0]
  · intro hpos
    have hne : ¬((db.items.filter (fun x => x.shoppingListId == lst.id)).length = 0) := by
      omega
    refine ⟨?_, ?_, ?_, ?_⟩ <;>
      simp [execute_finalize_order, hcr, hne, updateListRow]

/-- Witness for C3 at a concrete input: one active list with id 1 and a
single item; finalize archives it at the current clock and creates
list 2, and the result reports one ordered item. -/
theorem finalize_order_contract_witness :
    (execute_finalize_order
        { lists := [{ id := 1, status := .active }], nextListId := 2,
          items := [{ id := 1, shoppingListId := 1, ingredientId := 1 }],
          nextItemId := 2, now := 7 }).2 = .ok 1 2 ∧
    (execute_finalize_order
        { lists := [{ id := 1, status := .active }], nextListId := 2,
          items := [{ id := 1, shoppingListId := 1, ingredientId := 1 }],
          nextItemId := 2, now := 7 }).1.lists =
      [{ id := 1, status := .ordered, orderedAt := some 7 },
       { id := 2, status := .active, orderedAt := none }] := by
  have h := (finalize_order_contract
    { lists := [{ id := 1, status := .active }], nextListId := 2,
      items := [{ id := 1, shoppingListId := 1, ingredientId := 1 }],
      nextItemId := 2, now := 7 }
    { id := 1, status := .active } (by decide)).2 (by decide)
  refine ⟨h.1, ?_⟩
  rw [h.2.1]
  decide

/-! ## C10 -/

/-- The single-item update `item.checked_off = not item.checked_off`
seen at the item-table level: flip the `checked_off` flag of the row(s)
with the given id, leave every other row untouched. -/
def toggleIfId (k : Nat) (x : ItemRow) : ItemRow :=
  if x.id == k then { x with checkedOff := !x.checkedOff } else x

theorem toggleIfId_id (k : Nat) (x : ItemRow) : (toggleIfId k x).id = x.id := by
  unfold toggleIfId
  split <;> rfl

theorem toggleIfId_invol (k : Nat) :
    ∀ l : List ItemRow, (l.map (toggleIfId k)).map (toggleIfId k) = l := by
  have hpt : ∀ x : ItemRow, toggleIfId k (toggleIfId k x) = x := by
    intro x
    by_cases hx : x.id == k <;> simp [toggleIfId, hx, Bool.not_not]
  intro l
  induction l with
  | nil => rfl
  | cons a t ih => simp [hpt a, ih]

theorem itemNamePred_toggle (db : DB) (listId k : Nat) (normalized : String) :
    itemNamePred { db with items := db.items.map (toggleIfId k) } listId normalized ∘
        toggleIfId k
      = itemNamePred db listId normalized := by
  funext x
  by_cases hx : x.id == k
  · simp only [Function.comp, toggleIfId, hx, if_pos]
    rfl
  · simp only [Function.comp, toggleIfId, hx, if_neg, Bool.false_eq_true,
      not_false_iff, ite_false]
    rfl

/-- C10: a successful `check_off_item` call flips the matched item's
`checked_off` flag and changes nothing else about the state (the
items table is mapped through `toggleIfId` of that item's id; every
other table is untouched), and a second successful call with the same
name matches the same first item and restores the original state
exactly (involution — not a one-way check). -/
theorem check_off_item_toggles (db : DB) (name : String)
    (lst : ShoppingListRow) (item : ItemRow)
    (hl : findActiveList db = some lst)
    (hi : findItemByName db lst.id (normalize_ingredient_name name) = some item) :
    (execute_check_off_item name db).2 =
      .ok (ingredientName db item.ingredientId) (!item.checkedOff) ∧
    (execute_check_off_item name db).1 =
      { db with items := db.items.map (toggleIfId item.id) } ∧
    (execute_check_off_item name (execute_check_off_item name db).1).1 = db := by
  have hcr : getOrCreateActiveList db = (db, lst) := by
    simp [getOrCreateActiveList, hl]
  have hr1 : execute_check_off_item name db =
      ({ db with items := db.items.map (toggleIfId item.id) },
       .ok (ingredientName db item.ingredientId) (!item.checkedOff)) := by
    simp only [execute_check_off_item, hcr, hi, updateItemRow]
    rfl
  refine ⟨by rw [hr1], by rw [hr1], ?_⟩
  rw [hr1]
  have hl1 : findActiveList { db with items := db.items.map (toggleIfId item.id) }
      = some lst := hl
  have hcr1 : getOrCreateActiveList { db with items := db.items.map (toggleIfId item.id) }
      = ({ db with items := db.items.map (toggleIfId item.id) }, lst) := by
    simp [getOrCreateActiveList, hl1]
  have hi' : db.items.find? (itemNamePred db lst.id (normalize_ingredient_name name))
      = some item := hi
  have hfind1 : findItemByName { db with items := db.items.map (toggleIfId item.id) }
      lst.id (normalize_ingredient_name name) = some (toggleIfId item.id item) := by
    show (db.items.map (toggleIfId item.id)).find?
      (itemNamePred { db with items := db.items.map (toggleIfId item.id) }
        lst.id (normalize_ingredient_name name)) = some (toggleIfId item.id item)
    rw [List.find?_map, itemNamePred_toggle, hi']
    rfl
  have hr2 : (execute_check_off_item name
      { db with items := db.items.map (toggleIfId item.id) }).1 =
      { db with items := ((db.items.map (toggleIfId item.id)).map (toggleIfId item.id)) } := by
    simp only [execute_check_off_item, hcr1, hfind1, updateItemRow, toggleIfId_id]
    rfl
  rw [hr2, toggleIfId_invol]

/-- Witness for C10 at a concrete input: one active list holding one
unchecked "Milk" item; the first call reports it checked off, and two
calls restore the original state. -/
theorem check_off_item_toggles_witness :
    (execute_check_off_item "milk"
        { ingredients := [{ id := 1, name := "Milk", normalizedName := "milk" }],
          nextIngredientId := 2,
          lists := [{ id := 1, status := .active }], nextListId := 2,
          items := [{ id := 1, shoppingListId := 1, ingredientId := 1 }],
          nextItemId := 2 }).2 = .ok "Milk" true ∧
    (execute_check_off_item "milk"
        (execute_check_off_item "milk"
          { ingredients := [{ id := 1, name := "Milk", normalizedName := "milk" }],
            nextIngredientId := 2,
            lists := [{ id := 1, status := .active }], nextListId := 2,
            items := [{ id := 1, shoppingListId := 1, ingredientId := 1 }],
            nextItemId := 2 }).1).1 =
      { ingredients := [{ id := 1, name := "Milk", normalizedName := "milk" }],
        nextIngredientId := 2,
        lists := [{ id := 1, status := .active }], nextListId := 2,
        items := [{ id := 1, shoppingListId := 1, ingredientId := 1 }],
        nextItemId := 2 } := by
  have h := check_off_item_toggles
    { ingredients := [{ id := 1, name := "Milk", normalizedName := "milk" }],
      nextIngredientId := 2,
      lists := [{ id := 1, status := .active }], nextListId := 2,
      items := [{ id := 1, shoppingListId := 1, ingredientId := 1 }],
      nextItemId := 2 }
    "milk" { id := 1, status := .active }
    { id := 1, shoppingListId := 1, ingredientId := 1 }
    (by decide) (by decide)
  exact ⟨h.1, h.2.2⟩


/-! ## C9 -/

theorem getRecipesLoop_error_iff (p : GetRecipesParams) (db : DB) :
    ∀ rs : List RecipeRow,
      (∃ e, getRecipesLoop p db rs = .error e) ↔
      (∃ r ∈ rs, notesForRecipe db r.id ≠ []) := by
  intro rs
  induction rs with
  | nil => simp [getRecipesLoop]
  | cons r rest ih =>
    cases hn : notesForRecipe db r.id with
    | nil =>
      simp only [getRecipesLoop, hn, hasPositiveNotes, latestNoteSummary]
      cases hrec : getRecipesLoop p db rest with
      | ok v =>
        rw [hrec] at ih
        simp only [bind, Except.bind, hrec]
        constructor
        · rintro ⟨e', he'⟩
          exact Except.noConfusion he'
        · rintro ⟨r', hr', hne⟩
          rcases List.mem_cons.mp hr' with h | h
          · subst h
            exact absurd hn hne
          · rcases ih.mpr ⟨r', h, hne⟩ with ⟨e', he'⟩
            exact Except.noConfusion he'
      | error e =>
        rw [hrec] at ih
        simp only [bind, Except.bind, hrec]
        constructor
        · intro _
          rcases ih.mp ⟨e, rfl⟩ with ⟨x, hx, hxe⟩
          exact ⟨x, List.mem_cons_of_mem r hx, hxe⟩
        · intro _
          exact ⟨e, rfl⟩
    | cons n ns =>
      simp only [getRecipesLoop, hn, hasPositiveNotes, latestNoteSummary]
      simp only [bind, Except.bind]
      constructor
      · intro _
        exact ⟨r, List.mem_cons_self r rest, by simp [hn]⟩
      · intro _
        exact ⟨.attributeErrorNoteOutcomeSuccess, rfl⟩

/-- C9: a `get_recipes` call surfaces a dispatcher-level TOOL_ERROR
(instead of recipe data) exactly when at least one recipe matched by
its name/cuisine query has an associated recipe note — the broken
`NoteOutcome.SUCCESS` / `latest.added_by` references are evaluated only
for non-empty note lists — and the dispatcher hands the session state
back unchanged. -/
theorem get_recipes_tool_error_iff_notes (p : GetRecipesParams) (db : DB) :
    ((∃ msg, (execute_tool_get_recipes p db).2 = .toolError msg) ↔
      ∃ r ∈ matchedRecipes p db, notesForRecipe db r.id ≠ []) ∧
    (execute_tool_get_recipes p db).1 = db := by
  have hiff := getRecipesLoop_error_iff p db (matchedRecipes p db)
  constructor
  · cases hres : getRecipesLoop p db (matchedRecipes p db) with
    | ok v =>
      rw [hres] at hiff
      have hno : ¬∃ r ∈ matchedRecipes p db, notesForRecipe db r.id ≠ [] := by
        rw [← hiff]
        rintro ⟨e, he⟩
        exact Except.noConfusion he
      constructor
      · rintro ⟨msg, hmsg⟩
        have hok : (execute_tool_get_recipes p db).2 = .ok { recipes := v, count := v.length } := by
          simp [execute_tool_get_recipes, execute_get_recipes, bind, Except.bind, hres]
        rw [hok] at hmsg
        exact GetRecipesDispatch.noConfusion hmsg
      · intro hex
        exact absurd hex hno
    | error e =>
      rw [hres] at hiff
      constructor
      · intro _
        exact hiff.mp ⟨e, rfl⟩
      · intro _
        refine ⟨"get_recipes failed: AttributeError", ?_⟩
        simp [execute_tool_get_recipes, execute_get_recipes, bind, Except.bind, hres]
  · cases hres : getRecipesLoop p db (matchedRecipes p db) <;>
      simp [execute_tool_get_recipes, execute_get_recipes, bind, Except.bind, hres]


/-! ## C8 -/

theorem mem_insertSorted (le : α → α → Bool) (a x : α) :
    ∀ l : List α, x ∈ insertSorted le a l ↔ x = a ∨ x ∈ l := by
  intro l
  induction l with
  | nil => simp [insertSorted]
  | cons b t ih =>
    by_cases hb : le a b
    · simp [insertSorted, hb]
    · simp [insertSorted, hb, ih]
      tauto

theorem mem_sortBy (le : α → α → Bool) (x : α) :
    ∀ l : List α, x ∈ sortBy le l ↔ x ∈ l := by
  intro l
  induction l with
  | nil => simp [sortBy]
  | cons a t ih => simp [sortBy, mem_insertSorted, ih]

theorem length_insertSorted (le : α → α → Bool) (a : α) :
    ∀ l : List α, (insertSorted le a l).length = l.length + 1 := by
  intro l
  induction l with
  | nil => rfl
  | cons b t ih =>
    by_cases hb : le a b
    · simp [insertSorted, hb]
    · simp [insertSorted, hb, ih]

theorem length_sortBy (le : α → α → Bool) :
    ∀ l : List α, (sortBy le l).length = l.length := by
  intro l
  induction l with
  | nil => rfl
  | cons a t ih => simp [sortBy, length_insertSorted, ih]

theorem startsWithChars_refl : ∀ l : List Char, startsWithChars l l = true := by
  intro l
  induction l with
  | nil => rfl
  | cons a t ih => simp [startsWithChars, ih]

theorem strContains_self (s : String) : strContains s s = true := by
  unfold strContains
  cases h : s.data with
  | nil => rfl
  | cons a t =>
    unfold containsChars
    rw [startsWithChars_refl]
    rfl

theorem confirmUpd_id (p : ConfirmParams) (i : Ingredient) :
    (confirmUpd p i).id = i.id := by
  unfold confirmUpd
  cases p.brand <;> cases p.size <;> cases p.price <;> rfl

theorem confirmUpd_norm (p : ConfirmParams) (i : Ingredient) :
    (confirmUpd p i).normalizedName = i.normalizedName := by
  unfold confirmUpd
  cases p.brand <;> cases p.size <;> cases p.price <;> rfl

theorem confirmUpd_kroger (p : ConfirmParams) (i : Ingredient) :
    (confirmUpd p i).krogerProductId = some p.krogerProductId := by
  unfold confirmUpd
  cases p.brand <;> cases p.size <;> cases p.price <;> rfl

theorem confirmUpd_brand (p : ConfirmParams) (i : Ingredient) (b : String)
    (hb : p.brand = some b) : (confirmUpd p i).preferredBrand = some b := by
  unfold confirmUpd
  rw [hb]
  cases p.size <;> cases p.price <;> rfl

theorem confirmUpd_size (p : ConfirmParams) (i : Ingredient) (s : String)
    (hs : p.size = some s) : (confirmUpd p i).preferredSize = some s := by
  unfold confirmUpd
  rw [hs]
  cases p.brand <;> cases p.price <;> rfl

theorem confirmUpd_price (p : ConfirmParams) (i : Ingredient) (pr : Rat)
    (hp : p.price = some pr) : (confirmUpd p i).lastKnownPrice = some pr := by
  unfold confirmUpd
  rw [hp]

theorem getOrCreateIngredient_mem (n : String) (db : DB) :
    (getOrCreateIngredient n db).2 ∈ (getOrCreateIngredient n db).1.ingredients := by
  cases h1 : db.ingredients.find?
      (fun i => i.normalizedName == normalize_ingredient_name n) with
  | some ing =>
    have hr : getOrCreateIngredient n db = (db, ing) := by
      simp [getOrCreateIngredient, h1]
    rw [hr]
    exact List.mem_of_find?_eq_some h1
  | none =>
    cases h2 : db.ingredients.find? (aliasMatches (normalize_ingredient_name n)) with
    | some ing =>
      have hr : getOrCreateIngredient n db = (db, ing) := by
        simp [getOrCreateIngredient, h1, h2]
      rw [hr]
      exact List.mem_of_find?_eq_some h2
    | none =>
      have hr : getOrCreateIngredient n db =
          ({ db with
             ingredients := db.ingredients ++
               [{ id := db.nextIngredientId, name := n,
                  normalizedName := normalize_ingredient_name n }],
             nextIngredientId := db.nextIngredientId + 1 },
           { id := db.nextIngredientId, name := n,
             normalizedName := normalize_ingredient_name n }) := by
        simp [getOrCreateIngredient, h1, h2]
      rw [hr]
      simp

theorem getOrCreateIngredient_len (n : String) (db : DB) :
    (getOrCreateIngredient n db).1.ingredients.length ≤ db.ingredients.length + 1 := by
  cases h1 : db.ingredients.find?
      (fun i => i.normalizedName == normalize_ingredient_name n) with
  | some ing =>
    have hr : getOrCreateIngredient n db = (db, ing) := by
      simp [getOrCreateIngredient, h1]
    rw [hr]
    exact Nat.le_succ _
  | none =>
    cases h2 : db.ingredients.find? (aliasMatches (normalize_ingredient_name n)) with
    | some ing =>
      have hr : getOrCreateIngredient n db = (db, ing) := by
        simp [getOrCreateIngredient, h1, h2]
      rw [hr]
      exact Nat.le_succ _
    | none =>
      have hr : getOrCreateIngredient n db =
          ({ db with
             ingredients := db.ingredients ++
               [{ id := db.nextIngredientId, name := n,
                  normalizedName := normalize_ingredient_name n }],
             nextIngredientId := db.nextIngredientId + 1 },
           { id := db.nextIngredientId, name := n,
             normalizedName := normalize_ingredient_name n }) := by
        simp [getOrCreateIngredient, h1, h2]
      rw [hr]
      simp

/-- C8 counterexample: the claim "reading the ingredient back via
get_ingredients returns the same product id, brand, and price that
were confirmed" is false, because the get_ingredients result dict
carries no price at all: confirming "Milk" with price 1 and with price
2 stores different prices on the Ingredient row yet produces the very
same get_ingredients output. -/
theorem get_ingredients_forgets_price :
    execute_get_ingredients { name := some "Milk", hasKrogerId := none }
        (execute_confirm_kroger_product
          { ingredientName := "Milk", krogerProductId := "0001",
            brand := some "Kroger Brand", size := none, price := some 1 } {}).1
      = execute_get_ingredients { name := some "Milk", hasKrogerId := none }
        (execute_confirm_kroger_product
          { ingredientName := "Milk", krogerProductId := "0001",
            brand := some "Kroger Brand", size := none, price := some 2 } {}).1 ∧
    (execute_confirm_kroger_product
        { ingredientName := "Milk", krogerProductId := "0001",
          brand := some "Kroger Brand", size := none, price := some 1 } {}).1.ingredients
      ≠ (execute_confirm_kroger_product
        { ingredientName := "Milk", krogerProductId := "0001",
          brand := some "Kroger Brand", size := none, price := some 2 } {}).1.ingredients := by
  exact ⟨by decide, by decide⟩

/-- C8 (amended): after confirm_kroger_product stores a product id,
brand, size and price for an ingredient name, reading it back via
get_ingredients returns the same product id, brand and size; the price
is persisted on the Ingredient row (and echoed by confirm's own
result) but is not part of the get_ingredients output.  Hypotheses:
the table stays within the tool's 50-row output limit, and the name
resolves by normalized name rather than through an alias of a
differently-named ingredient. -/
theorem confirm_then_read_back (p : ConfirmParams) (db : DB)
    (hlen : db.ingredients.length ≤ 49)
    (hres : ((getOrCreateIngredient p.ingredientName db).2).normalizedName
              = normalize_ingredient_name p.ingredientName) :
    ∃ out ∈ (execute_get_ingredients
        { name := some p.ingredientName, hasKrogerId := none }
        (execute_confirm_kroger_product p db).1).ingredients,
      out.id = (getOrCreateIngredient p.ingredientName db).2.id ∧
      out.krogerProductId = some p.krogerProductId ∧
      (∀ b, p.brand = some b → out.preferredBrand = some b) ∧
      (∀ sz, p.size = some sz → out.preferredSize = some sz) ∧
      ∃ row ∈ (execute_confirm_kroger_product p db).1.ingredients,
        row.id = (getOrCreateIngredient p.ingredientName db).2.id ∧
        row.krogerProductId = some p.krogerProductId ∧
        (∀ pr, p.price = some pr → row.lastKnownPrice = some pr) := by
  rcases hgoc : getOrCreateIngredient p.ingredientName db with ⟨db1, ing⟩
  have hmem1 : ing ∈ db1.ingredients := by
    have := getOrCreateIngredient_mem p.ingredientName db
    rw [hgoc] at this
    exact this
  have hlen1 : db1.ingredients.length ≤ db.ingredients.length + 1 := by
    have := getOrCreateIngredient_len p.ingredientName db
    rw [hgoc] at this
    exact this
  rw [hgoc] at hres
  have hstate : (execute_confirm_kroger_product p db).1 =
      updateIngredientRow db1 ing.id (confirmUpd p) := by
    simp [execute_confirm_kroger_product, hgoc]
  have hrowmem : confirmUpd p ing ∈
      (updateIngredientRow db1 ing.id (confirmUpd p)).ingredients := by
    have : (fun i => if i.id == ing.id then confirmUpd p i else i) ing
        = confirmUpd p ing := by simp
    rw [updateIngredientRow, ← this]
    exact List.mem_map_of_mem _ hmem1
  have hrowlen : (updateIngredientRow db1 ing.id (confirmUpd p)).ingredients.length
      = db1.ingredients.length := by
    simp [updateIngredientRow]
  rw [hstate]
  -- the read-back on the updated table
  set db2 := updateIngredientRow db1 ing.id (confirmUpd p) with hdb2
  have hq1 : ∃ q1 : List Ingredient,
      (execute_get_ingredients { name := some p.ingredientName, hasKrogerId := none } db2).ingredients
        = ((sortBy (fun a b : Ingredient => !(decide (b.name < a.name))) q1).take 50).map
            (fun i => { id := i.id, name := i.name, preferredBrand := i.preferredBrand,
                        preferredSize := i.preferredSize, krogerProductId := i.krogerProductId,
                        category := i.category : IngredientOut }) ∧
      confirmUpd p ing ∈ q1 ∧ q1.length ≤ db2.ingredients.length := by
    by_cases hnf : p.ingredientName = ""
    · refine ⟨db2.ingredients, ?_, hrowmem, le_refl _⟩
      simp [execute_get_ingredients, hnf]
    · refine ⟨db2.ingredients.filter (fun i => strContains i.normalizedName
        (normalize_ingredient_name p.ingredientName)), ?_, ?_, List.length_filter_le _ _⟩
      · simp [execute_get_ingredients, hnf]
      · refine List.mem_filter.mpr ⟨hrowmem, ?_⟩
        rw [confirmUpd_norm, hres]
        exact strContains_self _
  rcases hq1 with ⟨q1, hq1eq, hq1mem, hq1len⟩
  have hslen : (sortBy (fun a b : Ingredient => !(decide (b.name < a.name))) q1).length ≤ 50 := by
    rw [length_sortBy]
    omega
  have htake : (sortBy (fun a b : Ingredient => !(decide (b.name < a.name))) q1).take 50
      = sortBy (fun a b : Ingredient => !(decide (b.name < a.name))) q1 :=
    List.take_of_length_le hslen
  have hsmem : confirmUpd p ing ∈ sortBy (fun a b : Ingredient => !(decide (b.name < a.name))) q1 :=
    (mem_sortBy _ _ q1).mpr hq1mem
  refine ⟨{ id := (confirmUpd p ing).id, name := (confirmUpd p ing).name,
            preferredBrand := (confirmUpd p ing).preferredBrand,
            preferredSize := (confirmUpd p ing).preferredSize,
            krogerProductId := (confirmUpd p ing).krogerProductId,
            category := (confirmUpd p ing).category }, ?_, ?_, ?_, ?_, ?_, ?_⟩
  · rw [hq1eq, htake]
    exact List.mem_map_of_mem _ hsmem
  · exact confirmUpd_id p ing
  · exact confirmUpd_kroger p ing
  · intro b hb
    exact confirmUpd_brand p ing b hb
  · intro sz hs
    exact confirmUpd_size p ing sz hs
  · exact ⟨confirmUpd p ing, hrowmem, confirmUpd_id p ing, confirmUpd_kroger p ing,
      fun pr hp => confirmUpd_price p ing pr hp⟩

/-- Witness for C8's amended theorem on the empty table: confirming
"Milk" with product id "0001", brand and price, then reading back. -/
theorem confirm_then_read_back_witness :
    ∃ out ∈ (execute_get_ingredients
        { name := some "Milk", hasKrogerId := none }
        (execute_confirm_kroger_product
          { ingredientName := "Milk", krogerProductId := "0001",
            brand := some "Kroger Brand", size := none, price := some 1 } {}).1).ingredients,
      out.id = (getOrCreateIngredient "Milk" ({} : DB)).2.id ∧
      out.krogerProductId = some "0001" ∧
      (∀ b, (some "Kroger Brand" : Option String) = some b → out.preferredBrand = some b) ∧
      (∀ sz, (none : Option String) = some sz → out.preferredSize = some sz) ∧
      ∃ row ∈ (execute_confirm_kroger_product
          { ingredientName := "Milk", krogerProductId := "0001",
            brand := some "Kroger Brand", size := none, price := some 1 } {}).1.ingredients,
        row.id = (getOrCreateIngredient "Milk" ({} : DB)).2.id ∧
        row.krogerProductId = some "0001" ∧
        (∀ pr, (some 1 : Option Rat) = some pr → row.lastKnownPrice = some pr) := by
  exact confirm_then_read_back
    { ingredientName := "Milk", krogerProductId := "0001",
      brand := some "Kroger Brand", size := none, price := some 1 } {}
    (by decide) (by decide)

/-! ## C4 -/

theorem cartClassify_go :
    ∀ (pairs : List (ItemRow × Ingredient))
      (acc : List CartLine × List String × List (String × String)),
      pairs.foldl cartStep acc =
        (acc.1 ++ (cartClassify pairs).1,
         acc.2.1 ++ (cartClassify pairs).2.1,
         acc.2.2 ++ (cartClassify pairs).2.2) := by
  intro pairs
  induction pairs with
  | nil =>
    intro acc
    simp [cartClassify]
  | cons pr t ih =>
    intro acc
    have hstep : (pr :: t).foldl cartStep acc = t.foldl cartStep (cartStep acc pr) := rfl
    have hcls : cartClassify (pr :: t) = t.foldl cartStep (cartStep ([], [], []) pr) := rfl
    rw [hstep, hcls, ih (cartStep acc pr), ih (cartStep ([], [], []) pr)]
    by_cases h1 : pyStrTruthy pr.2.purchaseSource
    · simp [cartStep, h1]
    · by_cases h2 : pyStrTruthy pr.2.krogerProductId
      · simp [cartStep, h1, h2]
      · simp [cartStep, h1, h2]

theorem cartClassify_unresolved :
    ∀ pairs : List (ItemRow × Ingredient),
      (cartClassify pairs).2.1 =
        (pairs.filter (fun pr =>
            !pyStrTruthy pr.2.purchaseSource && !pyStrTruthy pr.2.krogerProductId)).map
          (fun pr => pr.2.name) := by
  intro pairs
  induction pairs with
  | nil => rfl
  | cons pr t ih =>
    have hcls : cartClassify (pr :: t) = t.foldl cartStep (cartStep ([], [], []) pr) := rfl
    rw [hcls, cartClassify_go t (cartStep ([], [], []) pr)]
    by_cases h1 : pyStrTruthy pr.2.purchaseSource
    · simp [cartStep, h1, ih]
    · by_cases h2 : pyStrTruthy pr.2.krogerProductId
      · simp [cartStep, h1, h2, ih]
      · simp [cartStep, h1, h2, ih]

/-- C4: add_to_kroger_cart on an existing, non-empty active list (with
the retailer configured, the user authenticated and the cart call
succeeding): if any active-list item whose ingredient is not flagged
with a (truthy) non-default purchase source lacks a (truthy) resolved
Kroger product id, the tool returns the unresolved-items error listing
exactly those items' ingredient names, the state is returned unchanged
(nothing is submitted to the cart, the list is not archived); if every
such item is resolved, the accumulated lines are submitted and the
active list is archived by exactly the transformation
`execute_finalize_order` applies (`archiveListRow`, i.e. the finalize
result's list table minus the fresh list finalize appends). -/
theorem cart_all_or_nothing (db : DB) (lst : ShoppingListRow)
    (hl : findActiveList db = some lst)
    (hne : joinedActiveItems db lst.id ≠ []) :
    (((joinedActiveItems db lst.id).filter (fun pr =>
        !pyStrTruthy pr.2.purchaseSource && !pyStrTruthy pr.2.krogerProductId)).map
        (fun pr => pr.2.name) ≠ [] →
      execute_add_to_kroger_cart true true true db =
        (db, .errUnresolved
          (((joinedActiveItems db lst.id).filter (fun pr =>
              !pyStrTruthy pr.2.purchaseSource && !pyStrTruthy pr.2.krogerProductId)).map
            (fun pr => pr.2.name))
          (cartClassify (joinedActiveItems db lst.id)).1.length)) ∧
    (((joinedActiveItems db lst.id).filter (fun pr =>
        !pyStrTruthy pr.2.purchaseSource && !pyStrTruthy pr.2.krogerProductId)).map
        (fun pr => pr.2.name) = [] →
      (execute_add_to_kroger_cart true true true db).1.lists =
          db.lists.map (fun x => if x.id == lst.id then archiveListRow db.now x else x) ∧
      (execute_add_to_kroger_cart true true true db).1.lists =
          ((execute_finalize_order db).1.lists).dropLast ∧
      (execute_add_to_kroger_cart true true true db).1.cartSubmissions =
          db.cartSubmissions ++ [(cartClassify (joinedActiveItems db lst.id)).1] ∧
      (execute_add_to_kroger_cart true true true db).2 =
          .ok (cartClassify (joinedActiveItems db lst.id)).1.length true
            (cartClassify (joinedActiveItems db lst.id)).2.2) := by
  have hcr : getOrCreateActiveList db = (db, lst) := by
    simp [getOrCreateActiveList, hl]
  have hjne : (joinedActiveItems db lst.id).isEmpty = false := by
    cases hj : joinedActiveItems db lst.id with
    | nil => exact absurd hj hne
    | cons a t => rfl
  have huneq := cartClassify_unresolved (joinedActiveItems db lst.id)
  constructor
  · intro hunres
    have hu : (cartClassify (joinedActiveItems db lst.id)).2.1 ≠ [] := by
      rw [huneq]
      exact hunres
    have hue : (cartClassify (joinedActiveItems db lst.id)).2.1.isEmpty = false := by
      cases hc : (cartClassify (joinedActiveItems db lst.id)).2.1 with
      | nil => exact absurd hc hu
      | cons a t => rfl
    rw [← huneq]
    simp [execute_add_to_kroger_cart, hcr, hjne, hue]
  · intro hres0
    have hu : (cartClassify (joinedActiveItems db lst.id)).2.1 = [] := by
      rw [huneq]
      exact hres0
    have hcount : ¬((db.items.filter (fun x => x.shoppingListId == lst.id)).length = 0) := by
      intro h0
      have hfe : db.items.filter (fun x => x.shoppingListId == lst.id) = [] :=
        List.eq_nil_of_length_eq_zero h0
      have : joinedActiveItems db lst.id = [] := by
        unfold joinedActiveItems
        rw [hfe]
        rfl
      exact hne this
    have hfin : (execute_finalize_order db).1.lists =
        db.lists.map (fun x => if x.id == lst.id then archiveListRow db.now x else x)
          ++ [{ id := db.nextListId, status := .active, orderedAt := none }] := by
      simp [execute_finalize_order, hcr, hcount, updateListRow]
    refine ⟨?_, ?_, ?_, ?_⟩
    · simp [execute_add_to_kroger_cart, hcr, hjne, hu, updateListRow]
    · rw [hfin]
      simp only [List.dropLast_concat]
      simp [execute_add_to_kroger_cart, hcr, hjne, hu, updateListRow]
    · simp [execute_add_to_kroger_cart, hcr, hjne, hu, updateListRow]
    · simp [execute_add_to_kroger_cart, hcr, hjne, hu]

/-- Witness for C4 at the spec's scenario: a 2-item active list, "Milk"
resolved to a Kroger product and "Eggs" unresolved — add-to-cart
returns the unresolved-items error naming "Eggs" with one resolved
item, and hands back the state unchanged (not archived, nothing
submitted). -/
theorem cart_all_or_nothing_witness :
    execute_add_to_kroger_cart true true true
        { ingredients := [{ id := 1, name := "Milk", normalizedName := "milk",
                            krogerProductId := some "0001" },
                          { id := 2, name := "Eggs", normalizedName := "eggs" }],
          nextIngredientId := 3,
          lists := [{ id := 1, status := .active }], nextListId := 2,
          items := [{ id := 1, shoppingListId := 1, ingredientId := 1 },
                    { id := 2, shoppingListId := 1, ingredientId := 2 }],
          nextItemId := 3 } =
      ({ ingredients := [{ id := 1, name := "Milk", normalizedName := "milk",
                           krogerProductId := some "0001" },
                         { id := 2, name := "Eggs", normalizedName := "eggs" }],
         nextIngredientId := 3,
         lists := [{ id := 1, status := .active }], nextListId := 2,
         items := [{ id := 1, shoppingListId := 1, ingredientId := 1 },
                   { id := 2, shoppingListId := 1, ingredientId := 2 }],
         nextItemId := 3 },
       .errUnresolved ["Eggs"] 1) := by
  have h := (cart_all_or_nothing
    { ingredients := [{ id := 1, name := "Milk", normalizedName := "milk",
                        krogerProductId := some "0001" },
                      { id := 2, name := "Eggs", normalizedName := "eggs" }],
      nextIngredientId := 3,
      lists := [{ id := 1, status := .active }], nextListId := 2,
      items := [{ id := 1, shoppingListId := 1, ingredientId := 1 },
                { id := 2, shoppingListId := 1, ingredientId := 2 }],
      nextItemId := 3 }
    { id := 1, status := .active } (by decide) (by decide)).1 (by decide)
  rw [h]
  decide

/-! ## C2 -/

theorem archiveIfId_inactive (x : ShoppingListRow) (k now : Nat)
    (hx : (x.status == SLStatus.active) = false) :
    (((if x.id == k then archiveListRow now x else x)).status == SLStatus.active) = false := by
  by_cases h : x.id == k
  · simp [h, archiveListRow]
  · simp [h, hx]

theorem archive_count_zero :
    ∀ (ls : List ShoppingListRow) (lst : ShoppingListRow) (now : Nat),
      ls.find? (fun l => l.status == SLStatus.active) = some lst →
      (ls.filter (fun l => l.status == SLStatus.active)).length ≤ 1 →
      ((ls.map (fun x => if x.id == lst.id then archiveListRow now x else x)).filter
          (fun l => l.status == SLStatus.active)).length = 0 := by
  intro ls
  induction ls with
  | nil =>
    intro lst now hf _
    simp at hf
  | cons a t ih =>
    intro lst now hf hc
    by_cases ha : (a.status == SLStatus.active) = true
    · have hfa : (a :: t).find? (fun l => l.status == SLStatus.active) = some a :=
        List.find?_cons_of_pos _ ha
      rw [hfa] at hf
      cases hf
      have htc : (t.filter (fun l => l.status == SLStatus.active)).length = 0 := by
        have : ((a :: t).filter (fun l => l.status == SLStatus.active)).length
            = (t.filter (fun l => l.status == SLStatus.active)).length + 1 := by
          simp [List.filter_cons, ha]
        omega
      have htnil : t.filter (fun l => l.status == SLStatus.active) = [] :=
        List.length_eq_zero.mp htc
      have hall : ∀ x ∈ t, ¬(x.status == SLStatus.active) = true :=
        List.filter_eq_nil_iff.mp htnil
      have hmapnil : (t.map (fun x => if x.id == a.id then archiveListRow now x else x)).filter
          (fun l => l.status == SLStatus.active) = [] := by
        refine List.filter_eq_nil_iff.mpr ?_
        intro y hy
        rcases List.mem_map.mp hy with ⟨x, hx, hxy⟩
        have hxna : (x.status == SLStatus.active) = false := by
          simpa using hall x hx
        rw [← hxy]
        simpa using archiveIfId_inactive x a.id now hxna
      have hhead : ((if a.id == a.id then archiveListRow now a else a).status
          == SLStatus.active) = false := by
        simp [archiveListRow]
      simp [List.filter_cons, archiveListRow, hmapnil]
      intro x hx
      by_cases hid : x.id = a.id
      · simp [hid]
      · simp [hid]
        simpa using hall x hx
    · have hfa : (a :: t).find? (fun l => l.status == SLStatus.active)
          = t.find? (fun l => l.status == SLStatus.active) :=
        List.find?_cons_of_neg _ (by simpa using ha)
      rw [hfa] at hf
      have hcn : (t.filter (fun l => l.status == SLStatus.active)).length ≤ 1 := by
        have : ((a :: t).filter (fun l => l.status == SLStatus.active)).length
            = (t.filter (fun l => l.status == SLStatus.active)).length := by
          simp [List.filter_cons, ha]
        omega
      have hana : (a.status == SLStatus.active) = false := by
        simpa using ha
      have hheadna : (((if a.id == lst.id then archiveListRow now a else a)).status
          == SLStatus.active) = false := archiveIfId_inactive a lst.id now hana
      simp only [List.map_cons, List.filter_cons, hheadna]
      exact ih lst now hf hcn

theorem getOrCreateActiveList_lists (db : DB) :
    (getOrCreateActiveList db).1.lists = db.lists ∨
    (findActiveList db = none ∧
      (getOrCreateActiveList db).1.lists =
        db.lists ++ [{ id := db.nextListId, status := .active, orderedAt := none }]) := by
  cases h : findActiveList db with
  | some l =>
    left
    simp [getOrCreateActiveList, h]
  | none =>
    right
    exact ⟨rfl, by simp [getOrCreateActiveList, h]⟩

theorem getOrCreateActiveList_mealPlans (db : DB) :
    (getOrCreateActiveList db).1.mealPlans = db.mealPlans := by
  cases h : findActiveList db with
  | some l => simp [getOrCreateActiveList, h]
  | none => simp [getOrCreateActiveList, h]

theorem getOrCreateActiveList_find (db : DB) :
    findActiveList (getOrCreateActiveList db).1 = some (getOrCreateActiveList db).2 := by
  cases h : findActiveList db with
  | some l =>
    have hr : getOrCreateActiveList db = (db, l) := by
      simp [getOrCreateActiveList, h]
    rw [hr]
    exact h
  | none =>
    have hr : getOrCreateActiveList db =
        ({ db with
           lists := db.lists ++
             [{ id := db.nextListId, status := .active, orderedAt := none }],
           nextListId := db.nextListId + 1 },
         { id := db.nextListId, status := .active, orderedAt := none }) := by
      simp [getOrCreateActiveList, h]
    rw [hr]
    show (db.lists ++ [({ id := db.nextListId, status := .active, orderedAt := none } : ShoppingListRow)]).find? (fun l => l.status == SLStatus.active) = some { id := db.nextListId, status := .active, orderedAt := none }
    have hn : db.lists.find? (fun l => l.status == SLStatus.active) = none := h
    rw [List.find?_append, hn]
    rfl

theorem countActive_getOrCreate (db : DB) (h : countActive db ≤ 1) :
    countActive (getOrCreateActiveList db).1 ≤ 1 := by
  rcases getOrCreateActiveList_lists db with heq | ⟨hnone, heq⟩
  · unfold countActive
    rw [heq]
    exact h
  · unfold countActive
    rw [heq]
    have hall : ∀ x ∈ db.lists, ¬(x.status == SLStatus.active) = true :=
      List.find?_eq_none.mp hnone
    have hnil : db.lists.filter (fun l => l.status == SLStatus.active) = [] :=
      List.filter_eq_nil_iff.mpr hall
    simp [List.filter_append, hnil]

theorem foldl_planChoice_some :
    ∀ (l : List MealPlanRow) (x : MealPlanRow),
      l.foldl (fun acc p => match acc with
        | none => some p
        | some q => if p.createdAt > q.createdAt then some p else some q) (some x) ≠ none := by
  intro l
  induction l with
  | nil => intro x h; exact Option.noConfusion h
  | cons a t ih =>
    intro x
    show t.foldl _ (if a.createdAt > x.createdAt then some a else some x) ≠ none
    by_cases hc : a.createdAt > x.createdAt
    · rw [if_pos hc]
      exact ih a
    · rw [if_neg hc]
      exact ih x

theorem findPlanningPlan_none_count (db : DB) (h : findPlanningPlan db = none) :
    countPlanning db = 0 := by
  unfold findPlanningPlan at h
  cases hf : db.mealPlans.filter (fun p => p.status == MPStatus.planning) with
  | nil =>
    unfold countPlanning
    rw [hf]
    rfl
  | cons a t =>
    rw [hf] at h
    exact absurd h (foldl_planChoice_some t a)

theorem getOrCreateActivePlan_count (db : DB) (h : countPlanning db ≤ 1) :
    countPlanning (getOrCreateActivePlan db).1 ≤ 1 ∧
    (getOrCreateActivePlan db).1.lists = db.lists := by
  cases hp : findPlanningPlan db with
  | some p =>
    have hr : getOrCreateActivePlan db = (db, p) := by
      simp [getOrCreateActivePlan, hp]
    rw [hr]
    exact ⟨h, rfl⟩
  | none =>
    have hc0 := findPlanningPlan_none_count db hp
    have hr : (getOrCreateActivePlan db).1 =
        { db with
          mealPlans := db.mealPlans ++
            [{ id := db.nextPlanId,
               weekStartDate := findFreeWeekStart db db.today (db.mealPlans.length + 1),
               meals := some [], status := .planning, createdAt := db.now }],
          nextPlanId := db.nextPlanId + 1 } := by
      simp [getOrCreateActivePlan, hp]
    rw [hr]
    constructor
    · unfold countPlanning at hc0 ⊢
      have hnil : db.mealPlans.filter (fun p => p.status == MPStatus.planning) = [] :=
        List.length_eq_zero.mp hc0
      simp [List.filter_append, hnil]
    · rfl

/-- `(filter p).length` does not grow under a row-mapping that never
turns a non-`p` row into a `p` row. -/
theorem filter_length_map_le {α : Type} (f : α → α) (p : α → Bool)
    (h : ∀ x, p (f x) = true → p x = true) :
    ∀ l : List α, ((l.map f).filter p).length ≤ (l.filter p).length := by
  intro l
  induction l with
  | nil => simp
  | cons a t ih =>
    by_cases hfa : p (f a) = true
    · have hpa : p a = true := h a hfa
      simp only [List.map_cons, List.filter_cons, hfa, hpa]
      simpa using ih
    · have hfa' : p (f a) = false := by simpa using hfa
      simp only [List.map_cons, List.filter_cons, hfa']
      by_cases hpa : p a = true
      · simp only [hpa]
        simp only [if_true]
        calc ((t.map f).filter p).length ≤ (t.filter p).length := ih
          _ ≤ (t.filter p).length + 1 := Nat.le_succ _
      · have hpa' : p a = false := by simpa using hpa
        simp only [hpa']
        simpa using ih

theorem SingletonInv_congr {db db' : DB} (h1 : db'.lists = db.lists)
    (h2 : db'.mealPlans = db.mealPlans) (h : SingletonInv db) : SingletonInv db' := by
  unfold SingletonInv countActive countPlanning at h ⊢
  rw [h1, h2]
  exact h

theorem getOrCreateIngredient_lists (n : String) (db : DB) :
    (getOrCreateIngredient n db).1.lists = db.lists ∧
    (getOrCreateIngredient n db).1.mealPlans = db.mealPlans := by
  cases h1 : db.ingredients.find?
      (fun i => i.normalizedName == normalize_ingredient_name n) with
  | some ing => simp [getOrCreateIngredient, h1]
  | none =>
    cases h2 : db.ingredients.find? (aliasMatches (normalize_ingredient_name n)) with
    | some ing => simp [getOrCreateIngredient, h1, h2]
    | none => simp [getOrCreateIngredient, h1, h2]

theorem getOrCreate_inv (db : DB) (h : SingletonInv db) :
    SingletonInv (getOrCreateActiveList db).1 := by
  refine ⟨countActive_getOrCreate db h.1, ?_⟩
  show countPlanning (getOrCreateActiveList db).1 ≤ 1
  unfold countPlanning
  rw [getOrCreateActiveList_mealPlans]
  exact h.2

theorem finalize_inv (db : DB) (h : SingletonInv db) :
    SingletonInv (execute_finalize_order db).1 := by
  rcases hc : getOrCreateActiveList db with ⟨db1, lst⟩
  have hinv1 : SingletonInv db1 := by
    have := getOrCreate_inv db h
    rw [hc] at this
    exact this
  have hfind : findActiveList db1 = some lst := by
    have := getOrCreateActiveList_find db
    rw [hc] at this
    exact this
  by_cases h0 : (db1.items.filter (fun x => x.shoppingListId == lst.id)).length = 0
  · have hres : (execute_finalize_order db).1 = db1 := by
      simp [execute_finalize_order, hc, h0]
    rw [hres]
    exact hinv1
  · have hres : (execute_finalize_order db).1.lists =
        db1.lists.map (fun x => if x.id == lst.id then archiveListRow db1.now x else x)
          ++ [{ id := db1.nextListId, status := .active, orderedAt := none }] := by
      simp [execute_finalize_order, hc, h0, updateListRow]
    have hres2 : (execute_finalize_order db).1.mealPlans = db1.mealPlans := by
      simp [execute_finalize_order, hc, h0, updateListRow]
    have harch := archive_count_zero db1.lists lst db1.now hfind hinv1.1
    constructor
    · unfold countActive
      rw [hres, List.filter_append]
      simp only [List.length_append, harch]
      simp
    · unfold countPlanning
      rw [hres2]
      exact hinv1.2

theorem updatePlan_planning_le (db : DB) (pid : Nat) (f : MealPlanRow → MealPlanRow)
    (hf : ∀ q, ((f q).status == MPStatus.planning) = true →
          (q.status == MPStatus.planning) = true)
    (h : countPlanning db ≤ 1) : countPlanning (updatePlanRow db pid f) ≤ 1 := by
  unfold countPlanning at h
  show ((db.mealPlans.map (fun p => if p.id == pid then f p else p)).filter
    (fun p => p.status == MPStatus.planning)).length ≤ 1
  have hstep := filter_length_map_le (fun p => if p.id == pid then f p else p)
    (fun p => p.status == MPStatus.planning) ?_ db.mealPlans
  · omega
  · intro x hx
    dsimp only at hx ⊢
    by_cases hid : x.id == pid
    · rw [if_pos hid] at hx
      exact hf x hx
    · rwa [if_neg hid] at hx

theorem addMeal_inv (p : AddMealParams) (db : DB) (h : SingletonInv db) :
    SingletonInv (execute_add_meal p db).1 := by
  rcases hc : getOrCreateActivePlan db with ⟨db1, plan⟩
  have hc1 := getOrCreateActivePlan_count db h.2
  rw [hc] at hc1
  have hres : (execute_add_meal p db).1 = updatePlanRow db1 plan.id (fun q => { q with meals := some ((q.meals.getD []) ++ [{ mealName := p.mealName, recipeId := p.recipeId, notes := p.notes, addedAt := db1.now }]) }) := by
    simp [execute_add_meal, hc]
  rw [hres]
  constructor
  · show countActive (updatePlanRow db1 _ _) ≤ 1
    unfold countActive updatePlanRow
    show (db1.lists.filter _).length ≤ 1
    have : db1.lists = db.lists := hc1.2
    rw [this]
    exact h.1
  · exact updatePlan_planning_le db1 plan.id _ (fun q hq => hq) hc1.1

theorem removeMeal_inv (name : String) (db : DB) (h : SingletonInv db) :
    SingletonInv (execute_remove_meal name db).1 := by
  cases hp : findPlanningPlan db with
  | none =>
    have : (execute_remove_meal name db).1 = db := by
      simp [execute_remove_meal, hp]
    rw [this]
    exact h
  | some plan =>
    cases hm : plan.meals with
    | none =>
      have : (execute_remove_meal name db).1 = db := by
        simp [execute_remove_meal, hp, hm]
      rw [this]
      exact h
    | some meals =>
      by_cases he : meals.isEmpty
      · have : (execute_remove_meal name db).1 = db := by
          simp [execute_remove_meal, hp, hm, he]
        rw [this]
        exact h
      · simp only [execute_remove_meal, hp, hm]
        rw [if_neg he]
        split
        · exact h
        · exact ⟨h.1, updatePlan_planning_le db plan.id _ (fun q hq => hq) h.2⟩

theorem completePlan_inv (db : DB) (h : SingletonInv db) :
    SingletonInv (execute_complete_meal_plan db).1 := by
  cases hp : findPlanningPlan db with
  | none =>
    have : (execute_complete_meal_plan db).1 = db := by
      simp [execute_complete_meal_plan, hp]
    rw [this]
    exact h
  | some plan =>
    have : (execute_complete_meal_plan db).1 =
        updatePlanRow db plan.id (fun q => { q with status := .completed }) := by
      simp [execute_complete_meal_plan, hp]
    rw [this]
    refine ⟨h.1, updatePlan_planning_le db plan.id _ ?_ h.2⟩
    intro q hq
    simp at hq

theorem cart_inv (c a s : Bool) (db : DB) (h : SingletonInv db) :
    SingletonInv (execute_add_to_kroger_cart c a s db).1 := by
  unfold execute_add_to_kroger_cart
  by_cases hc : c = true
  · by_cases ha : a = true
    · simp only [hc, ha, Bool.not_true]
      simp only [if_neg (by decide : ¬(false = true))]
      rcases hcr : getOrCreateActiveList db with ⟨db1, lst⟩
      have hinv1 : SingletonInv db1 := by
        have := getOrCreate_inv db h
        rw [hcr] at this
        exact this
      have hfind : findActiveList db1 = some lst := by
        have := getOrCreateActiveList_find db
        rw [hcr] at this
        exact this
      dsimp only
      by_cases hje : (joinedActiveItems db1 lst.id).isEmpty
      · simp only [hje, if_pos rfl]
        exact hinv1
      · rw [if_neg hje]
        by_cases hue : (cartClassify (joinedActiveItems db1 lst.id)).2.1.isEmpty
        · simp only [hue, Bool.not_true, if_neg (by decide : ¬(false = true))]
          by_cases hs : s = true
          · simp only [hs, if_pos rfl]
            have harch := archive_count_zero db1.lists lst db1.now hfind hinv1.1
            constructor
            · show ((db1.lists.map (fun x => if x.id == lst.id then archiveListRow db1.now x else x)).filter (fun l => l.status == SLStatus.active)).length ≤ 1
              omega
            · exact hinv1.2
          · have hs' : s = false := by
              cases s
              · rfl
              · exact absurd rfl hs
            simp only [hs', if_neg (by decide : ¬(false = true))]
            exact ⟨hinv1.1, hinv1.2⟩
        · have : (cartClassify (joinedActiveItems db1 lst.id)).2.1.isEmpty = false := by
            cases hx : (cartClassify (joinedActiveItems db1 lst.id)).2.1.isEmpty
            · rfl
            · exact absurd hx hue
          simp only [this, Bool.not_false, if_pos rfl]
          exact hinv1
    · have ha' : a = false := by
        cases a
        · rfl
        · exact absurd rfl ha
      simp only [ha', Bool.not_false, if_pos rfl]
      by_cases hcb : (!c) = true
      · simp only [if_pos hcb]
        exact h
      · simp only [if_neg hcb]
        exact h
  · have hc' : c = false := by
      cases c
      · rfl
      · exact absurd rfl hc
    simp only [hc', Bool.not_false, if_pos rfl]
    exact h

theorem dispatch_get_recipes_state (p : GetRecipesParams) (db : DB) :
    (execute_tool_get_recipes p db).1 = db := by
  cases hres : execute_get_recipes p db <;>
    simp [execute_tool_get_recipes, hres]

theorem applyOp_inv (op : Op) (db : DB) (h : SingletonInv db) :
    SingletonInv (applyOp op db) := by
  cases op with
  | addItem p =>
    show SingletonInv (execute_add_item p db).1
    rcases hg : getOrCreateIngredient p.name db with ⟨dbA, ing⟩
    have hA : dbA.lists = db.lists ∧ dbA.mealPlans = db.mealPlans := by
      have := getOrCreateIngredient_lists p.name db
      rw [hg] at this
      exact this
    have hinvA : SingletonInv dbA := SingletonInv_congr hA.1 hA.2 h
    rcases hc : getOrCreateActiveList dbA with ⟨dbB, lst⟩
    have hinvB : SingletonInv dbB := by
      have := getOrCreate_inv dbA hinvA
      rw [hc] at this
      exact this
    have hres : (execute_add_item p db).1.lists = dbB.lists ∧
        (execute_add_item p db).1.mealPlans = dbB.mealPlans := by
      simp [execute_add_item, hg, hc]
    exact SingletonInv_congr hres.1 hres.2 hinvB
  | removeItem name =>
    show SingletonInv (execute_remove_item name db).1
    rcases hc : getOrCreateActiveList db with ⟨db1, lst⟩
    have hinv1 : SingletonInv db1 := by
      have := getOrCreate_inv db h
      rw [hc] at this
      exact this
    cases hf : findItemByName db1 lst.id (normalize_ingredient_name name) with
    | none =>
      have : (execute_remove_item name db).1 = db1 := by
        simp [execute_remove_item, hc, hf]
      rw [this]
      exact hinv1
    | some item =>
      have hres : (execute_remove_item name db).1.lists = db1.lists ∧
          (execute_remove_item name db).1.mealPlans = db1.mealPlans := by
        simp [execute_remove_item, hc, hf]
      exact SingletonInv_congr hres.1 hres.2 hinv1
  | updateItem p =>
    show SingletonInv (execute_update_item p db).1
    rcases hc : getOrCreateActiveList db with ⟨db1, lst⟩
    have hinv1 : SingletonInv db1 := by
      have := getOrCreate_inv db h
      rw [hc] at this
      exact this
    cases hf : findItemByName db1 lst.id (normalize_ingredient_name p.itemName) with
    | none =>
      have : (execute_update_item p db).1 = db1 := by
        simp [execute_update_item, hc, hf]
      rw [this]
      exact hinv1
    | some item =>
      have hres : (execute_update_item p db).1.lists = db1.lists ∧
          (execute_update_item p db).1.mealPlans = db1.mealPlans := by
        simp [execute_update_item, hc, hf, updateItemRow]
      exact SingletonInv_congr hres.1 hres.2 hinv1
  | clearList =>
    show SingletonInv (execute_clear_list db).1
    rcases hc : getOrCreateActiveList db with ⟨db1, lst⟩
    have hinv1 : SingletonInv db1 := by
      have := getOrCreate_inv db h
      rw [hc] at this
      exact this
    have hres : (execute_clear_list db).1.lists = db1.lists ∧
        (execute_clear_list db).1.mealPlans = db1.mealPlans := by
      simp [execute_clear_list, hc]
    exact SingletonInv_congr hres.1 hres.2 hinv1
  | finalizeOrder =>
    exact finalize_inv db h
  | addMeal p =>
    exact addMeal_inv p db h
  | removeMeal name =>
    exact removeMeal_inv name db h
  | completeMealPlan =>
    exact completePlan_inv db h
  | generateListFromMeals =>
    show SingletonInv (execute_generate_list_from_meals db).1
    cases hp : findPlanningPlan db with
    | none =>
      have : (execute_generate_list_from_meals db).1 = db := by
        simp [execute_generate_list_from_meals, hp]
      rw [this]
      exact h
    | some plan =>
      cases hm : plan.meals with
      | none =>
        have : (execute_generate_list_from_meals db).1 = db := by
          simp [execute_generate_list_from_meals, hp, hm]
        rw [this]
        exact h
      | some meals =>
        by_cases he : meals.isEmpty
        · have : (execute_generate_list_from_meals db).1 = db := by
            simp [execute_generate_list_from_meals, hp, hm, he]
          rw [this]
          exact h
        · rcases hc : getOrCreateActiveList db with ⟨db1, lst⟩
          have hinv1 : SingletonInv db1 := by
            have := getOrCreate_inv db h
            rw [hc] at this
            exact this
          have hres : (execute_generate_list_from_meals db).1.lists = db1.lists ∧
              (execute_generate_list_from_meals db).1.mealPlans = db1.mealPlans := by
            simp [execute_generate_list_from_meals, hp, hm, he, hc]
          exact SingletonInv_congr hres.1 hres.2 hinv1
  | checkOffItem name =>
    show SingletonInv (execute_check_off_item name db).1
    rcases hc : getOrCreateActiveList db with ⟨db1, lst⟩
    have hinv1 : SingletonInv db1 := by
      have := getOrCreate_inv db h
      rw [hc] at this
      exact this
    cases hf : findItemByName db1 lst.id (normalize_ingredient_name name) with
    | none =>
      have : (execute_check_off_item name db).1 = db1 := by
        simp [execute_check_off_item, hc, hf]
      rw [this]
      exact hinv1
    | some item =>
      have hres : (execute_check_off_item name db).1.lists = db1.lists ∧
          (execute_check_off_item name db).1.mealPlans = db1.mealPlans := by
        simp [execute_check_off_item, hc, hf, updateItemRow]
      exact SingletonInv_congr hres.1 hres.2 hinv1
  | confirmKrogerProduct p =>
    show SingletonInv (execute_confirm_kroger_product p db).1
    rcases hg : getOrCreateIngredient p.ingredientName db with ⟨dbA, ing⟩
    have hA : dbA.lists = db.lists ∧ dbA.mealPlans = db.mealPlans := by
      have := getOrCreateIngredient_lists p.ingredientName db
      rw [hg] at this
      exact this
    have hinvA : SingletonInv dbA := SingletonInv_congr hA.1 hA.2 h
    have hres : (execute_confirm_kroger_product p db).1.lists = dbA.lists ∧
        (execute_confirm_kroger_product p db).1.mealPlans = dbA.mealPlans := by
      simp [execute_confirm_kroger_product, hg, updateIngredientRow]
    exact SingletonInv_congr hres.1 hres.2 hinvA
  | addToKrogerCart c a s =>
    exact cart_inv c a s db h
  | getIngredients p =>
    exact h
  | getRecipes p =>
    show SingletonInv (execute_tool_get_recipes p db).1
    rw [dispatch_get_recipes_state]
    exact h

/-- C2: any sequence of sequentially executed tool operations preserves
the singleton invariants — starting from a state with at most one
active ShoppingList row and at most one planning-status MealPlan row,
the resulting state again has at most one of each. -/
theorem singleton_invariants_preserved (ops : List Op) (db : DB)
    (h : SingletonInv db) : SingletonInv (runOps ops db) := by
  induction ops generalizing db with
  | nil => exact h
  | cons op rest ih =>
    exact ih (applyOp op db) (applyOp_inv op db h)

/-- Witness for C2 at a concrete input: from the empty database, adding
an item, adding a meal, finalizing the order and completing the meal
plan leaves exactly one active list and no planning-status plan. -/
theorem singleton_invariants_preserved_witness :
    SingletonInv (runOps
      [Op.addItem { name := "Milk", addedBy := "Erich" },
       Op.addMeal { mealName := "Tacos" },
       Op.finalizeOrder,
       Op.completeMealPlan] {}) := by
  have h := singleton_invariants_preserved
    [Op.addItem { name := "Milk", addedBy := "Erich" },
     Op.addMeal { mealName := "Tacos" },
     Op.finalizeOrder,
     Op.completeMealPlan] {} (by constructor <;> decide)
  exact h

/-! ## C6 -/

/-- "Is an item row for ingredient `iid` on list `listId`". -/
def onListPred (listId iid : Nat) (it : ItemRow) : Bool :=
  it.shoppingListId == listId && it.ingredientId == iid

/-- Number of items for ingredient `iid` on list `listId`. -/
def countOnList (db : DB) (listId iid : Nat) : Nat :=
  (db.items.filter (onListPred listId iid)).length

/-- Ingredient `iid` is linked by some recipe of some meal of the plan. -/
def linkedInPlan (db : DB) (meals : List MealEntry) (iid : Nat) : Prop :=
  ∃ m ∈ meals, ∃ rid, m.recipeId = some rid ∧
    ∃ ri ∈ db.recipeIngredients, ri.recipeId = rid ∧ ri.ingredientId = iid

theorem find_by_id :
    ∀ (l : List Ingredient) (I : Ingredient), I ∈ l →
      (l.map (fun i => i.id)).Nodup →
      l.find? (fun i => i.id == I.id) = some I := by
  intro l
  induction l with
  | nil => intro I hI; cases hI
  | cons a t ih =>
    intro I hI hnd
    rcases List.mem_cons.mp hI with h | h
    · subst h
      exact List.find?_cons_of_pos _ (by simp)
    · have hne : ¬(a.id == I.id) = true := by
        intro hae
        have haI : a.id = I.id := by simpa using hae
        have : I.id ∈ t.map (fun i => i.id) := List.mem_map_of_mem _ h
        rw [← haI] at this
        exact (List.nodup_cons.mp (by simpa using hnd)).1 this
      have hstep : (a :: t).find? (fun i => i.id == I.id)
          = t.find? (fun i => i.id == I.id) := List.find?_cons_of_neg _ hne
      rw [hstep]
      exact ih I h (List.nodup_cons.mp (by simpa using hnd)).2

theorem genStep_suffix (db : DB) (listId now : Nat) (pantryNames : List String)
    (rid : Nat) (acc : GenAcc) (ri : RecipeIngredientRow) :
    (∃ x, (genStep db listId now pantryNames rid acc ri).items = acc.items ++ x) ∧
    (∃ x, (genStep db listId now pantryNames rid acc ri).skippedExisting
        = acc.skippedExisting ++ x) ∧
    (∃ x, (genStep db listId now pantryNames rid acc ri).skippedPantry
        = acc.skippedPantry ++ x) ∧
    (∃ x, (genStep db listId now pantryNames rid acc ri).existingIds
        = acc.existingIds ++ x) := by
  unfold genStep
  by_cases h1 : acc.existingIds.contains ri.ingredientId
  · rw [if_pos h1]
    exact ⟨⟨[], by simp⟩, ⟨_, rfl⟩, ⟨[], by simp⟩, ⟨[], by simp⟩⟩
  · rw [if_neg h1]
    by_cases h2 : pantryNames.contains (ingredientNorm db ri.ingredientId)
    · rw [if_pos h2]
      exact ⟨⟨[], by simp⟩, ⟨[], by simp⟩, ⟨_, rfl⟩, ⟨[], by simp⟩⟩
    · rw [if_neg h2]
      exact ⟨⟨_, rfl⟩, ⟨[], by simp⟩, ⟨[], by simp⟩, ⟨_, rfl⟩⟩

theorem foldl_app_mono {β γ : Type} (f : GenAcc → β → GenAcc) (g : GenAcc → List γ)
    (hf : ∀ acc b, ∃ x, g (f acc b) = g acc ++ x) :
    ∀ (l : List β) (acc : GenAcc), ∃ x, g (l.foldl f acc) = g acc ++ x := by
  intro l
  induction l with
  | nil => intro acc; exact ⟨[], by simp⟩
  | cons b t ih =>
    intro acc
    rcases hf acc b with ⟨x0, hx0⟩
    rcases ih (f acc b) with ⟨x1, hx1⟩
    exact ⟨x0 ++ x1, by simp [List.foldl_cons, hx1, hx0]⟩

theorem genMealStep_suffix (db : DB) (listId now : Nat) (pantryNames : List String)
    (acc : GenAcc) (m : MealEntry) :
    (∃ x, (genMealStep db listId now pantryNames acc m).items = acc.items ++ x) ∧
    (∃ x, (genMealStep db listId now pantryNames acc m).skippedExisting
        = acc.skippedExisting ++ x) ∧
    (∃ x, (genMealStep db listId now pantryNames acc m).skippedPantry
        = acc.skippedPantry ++ x) := by
  unfold genMealStep
  cases m.recipeId with
  | none => exact ⟨⟨[], by simp⟩, ⟨[], by simp⟩, ⟨[], by simp⟩⟩
  | some rid =>
    exact ⟨foldl_app_mono _ (fun a => a.items)
             (fun acc ri => (genStep_suffix db listId now pantryNames rid acc ri).1) _ acc,
           foldl_app_mono _ (fun a => a.skippedExisting)
             (fun acc ri => (genStep_suffix db listId now pantryNames rid acc ri).2.1) _ acc,
           foldl_app_mono _ (fun a => a.skippedPantry)
             (fun acc ri => (genStep_suffix db listId now pantryNames rid acc ri).2.2.1) _ acc⟩

theorem genMeals_suffix (db : DB) (listId now : Nat) (pantryNames : List String) :
    ∀ (ms : List MealEntry) (acc : GenAcc),
      (∃ x, (ms.foldl (genMealStep db listId now pantryNames) acc).items
          = acc.items ++ x) ∧
      (∃ x, (ms.foldl (genMealStep db listId now pantryNames) acc).skippedExisting
          = acc.skippedExisting ++ x) ∧
      (∃ x, (ms.foldl (genMealStep db listId now pantryNames) acc).skippedPantry
          = acc.skippedPantry ++ x) := by
  intro ms acc
  exact ⟨foldl_app_mono _ (fun a => a.items)
           (fun acc m => (genMealStep_suffix db listId now pantryNames acc m).1) ms acc,
         foldl_app_mono _ (fun a => a.skippedExisting)
           (fun acc m => (genMealStep_suffix db listId now pantryNames acc m).2.1) ms acc,
         foldl_app_mono _ (fun a => a.skippedPantry)
           (fun acc m => (genMealStep_suffix db listId now pantryNames acc m).2.2) ms acc⟩

theorem genInner_existing (db : DB) (listId now : Nat) (pantryNames : List String)
    (rid : Nat) (I : Ingredient)
    (hname : ingredientName db I.id = I.name) :
    ∀ (ris : List RecipeIngredientRow) (acc : GenAcc),
      I.id ∈ acc.existingIds →
      I.id ∈ (ris.foldl (genStep db listId now pantryNames rid) acc).existingIds ∧
      (ris.foldl (genStep db listId now pantryNames rid) acc).items.filter
          (onListPred listId I.id)
        = acc.items.filter (onListPred listId I.id) ∧
      (∀ ri ∈ ris, ri.ingredientId = I.id →
        I.name ∈ (ris.foldl (genStep db listId now pantryNames rid) acc).skippedExisting) := by
  intro ris
  induction ris with
  | nil =>
    intro acc hIn
    refine ⟨hIn, rfl, ?_⟩
    intro ri h
    exact absurd h (List.not_mem_nil ri)
  | cons ri t ih =>
    intro acc hIn
    have hfold : (ri :: t).foldl (genStep db listId now pantryNames rid) acc
        = t.foldl (genStep db listId now pantryNames rid)
            (genStep db listId now pantryNames rid acc ri) := rfl
    have hIn' : I.id ∈ (genStep db listId now pantryNames rid acc ri).existingIds := by
      rcases (genStep_suffix db listId now pantryNames rid acc ri).2.2.2 with ⟨x, hx⟩
      rw [hx]
      exact List.mem_append_left _ hIn
    have hfilter' : (genStep db listId now pantryNames rid acc ri).items.filter
        (onListPred listId I.id) = acc.items.filter (onListPred listId I.id) := by
      unfold genStep
      by_cases h1 : acc.existingIds.contains ri.ingredientId
      · rw [if_pos h1]
      · rw [if_neg h1]
        by_cases h2 : pantryNames.contains (ingredientNorm db ri.ingredientId)
        · rw [if_pos h2]
        · rw [if_neg h2]
          dsimp only
          rw [List.filter_append]
          have hne : ri.ingredientId ≠ I.id := by
            intro he
            apply h1
            rw [he]
            simpa using hIn
          have hpf : onListPred listId I.id
              { id := acc.nextItemId, shoppingListId := listId,
                ingredientId := ri.ingredientId, quantity := ri.quantity, unit := ri.unit,
                addedBy := "meal plan", addedAt := now, fromRecipeId := some rid } = false := by
            unfold onListPred
            simp [hne]
          simp [hpf]
    have hrec : ri.ingredientId = I.id →
        I.name ∈ (genStep db listId now pantryNames rid acc ri).skippedExisting := by
      intro he
      have h1 : acc.existingIds.contains ri.ingredientId = true := by
        rw [he]
        simpa using hIn
      unfold genStep
      rw [if_pos h1]
      dsimp only
      rw [he, hname]
      exact List.mem_append_right _ (by simp)
    obtain ⟨hIn2, hfil2, hrec2⟩ := ih (genStep db listId now pantryNames rid acc ri) hIn'
    refine ⟨by rw [hfold]; exact hIn2, by rw [hfold, hfil2, hfilter'], ?_⟩
    intro rj hrj hej
    rw [hfold]
    rcases List.mem_cons.mp hrj with h | h
    · rcases foldl_app_mono _ (fun a => a.skippedExisting)
        (fun a b => (genStep_suffix db listId now pantryNames rid a b).2.1) t
        (genStep db listId now pantryNames rid acc ri) with ⟨x, hx⟩
      rw [hx]
      subst h
      exact List.mem_append_left _ (hrec hej)
    · exact hrec2 rj h hej

theorem genOuter_existing (db : DB) (listId now : Nat) (pantryNames : List String)
    (I : Ingredient) (hname : ingredientName db I.id = I.name) :
    ∀ (ms : List MealEntry) (acc : GenAcc),
      I.id ∈ acc.existingIds →
      I.id ∈ (ms.foldl (genMealStep db listId now pantryNames) acc).existingIds ∧
      (ms.foldl (genMealStep db listId now pantryNames) acc).items.filter
          (onListPred listId I.id)
        = acc.items.filter (onListPred listId I.id) ∧
      (∀ m ∈ ms, ∀ rid, m.recipeId = some rid →
        ∀ ri ∈ db.recipeIngredients, ri.recipeId = rid → ri.ingredientId = I.id →
          I.name ∈ (ms.foldl (genMealStep db listId now pantryNames) acc).skippedExisting) := by
  intro ms
  induction ms with
  | nil =>
    intro acc hIn
    refine ⟨hIn, rfl, ?_⟩
    intro m h
    exact absurd h (List.not_mem_nil m)
  | cons m t ih =>
    intro acc hIn
    have hfold : (m :: t).foldl (genMealStep db listId now pantryNames) acc
        = t.foldl (genMealStep db listId now pantryNames)
            (genMealStep db listId now pantryNames acc m) := rfl
    have hstep : I.id ∈ (genMealStep db listId now pantryNames acc m).existingIds ∧
        (genMealStep db listId now pantryNames acc m).items.filter (onListPred listId I.id)
          = acc.items.filter (onListPred listId I.id) ∧
        (∀ rid, m.recipeId = some rid →
          ∀ ri ∈ db.recipeIngredients, ri.recipeId = rid → ri.ingredientId = I.id →
            I.name ∈ (genMealStep db listId now pantryNames acc m).skippedExisting) := by
      unfold genMealStep
      cases hr : m.recipeId with
      | none =>
        refine ⟨hIn, rfl, ?_⟩
        intro rid hrid
        cases hrid
      | some rid =>
        obtain ⟨ha, hb, hc⟩ := genInner_existing db listId now pantryNames rid I hname
          (db.recipeIngredients.filter (fun ri => ri.recipeId == rid)) acc hIn
        refine ⟨ha, hb, ?_⟩
        intro rid' hrid' ri hri hrid2 hiid
        have hr2 : rid' = rid := by
          injection hrid' with hinj
          exact hinj.symm
        subst hr2
        exact hc ri (List.mem_filter.mpr ⟨hri, by simp [hrid2]⟩) hiid
    obtain ⟨hIn2, hfil2, hrec2⟩ := ih (genMealStep db listId now pantryNames acc m) hstep.1
    refine ⟨by rw [hfold]; exact hIn2, by rw [hfold, hfil2, hstep.2.1], ?_⟩
    intro m' hm' rid hrid ri hri hrid2 hiid
    rw [hfold]
    rcases List.mem_cons.mp hm' with h | h
    · rcases foldl_app_mono _ (fun a => a.skippedExisting)
        (fun a b => (genMealStep_suffix db listId now pantryNames a b).2.1) t
        (genMealStep db listId now pantryNames acc m) with ⟨x, hx⟩
      rw [hx]
      subst h
      exact List.mem_append_left _ (hstep.2.2 rid hrid ri hri hrid2 hiid)
    · exact hrec2 m' h rid hrid ri hri hrid2 hiid

theorem genInner_pantry (db : DB) (listId now : Nat) (pantryNames : List String)
    (rid : Nat) (I : Ingredient)
    (hname : ingredientName db I.id = I.name)
    (hnorm : ingredientNorm db I.id = I.normalizedName)
    (hpan : pantryNames.contains I.normalizedName = true) :
    ∀ (ris : List RecipeIngredientRow) (acc : GenAcc),
      I.id ∉ acc.existingIds →
      acc.items.filter (onListPred listId I.id) = [] →
      I.id ∉ (ris.foldl (genStep db listId now pantryNames rid) acc).existingIds ∧
      (ris.foldl (genStep db listId now pantryNames rid) acc).items.filter
          (onListPred listId I.id) = [] ∧
      (∀ ri ∈ ris, ri.ingredientId = I.id →
        I.name ∈ (ris.foldl (genStep db listId now pantryNames rid) acc).skippedPantry) := by
  intro ris
  induction ris with
  | nil =>
    intro acc hNin hfil
    refine ⟨hNin, hfil, ?_⟩
    intro ri h
    exact absurd h (List.not_mem_nil ri)
  | cons ri t ih =>
    intro acc hNin hfil
    have hfold : (ri :: t).foldl (genStep db listId now pantryNames rid) acc
        = t.foldl (genStep db listId now pantryNames rid)
            (genStep db listId now pantryNames rid acc ri) := rfl
    by_cases hiri : ri.ingredientId = I.id
    · -- the occurrence: not in existing ids, pantry hit → pantry-skip branch
      have h1 : acc.existingIds.contains ri.ingredientId = false := by
        rw [hiri]
        simpa using hNin
      have h2 : pantryNames.contains (ingredientNorm db ri.ingredientId) = true := by
        rw [hiri, hnorm]
        exact hpan
      have hstepeq : genStep db listId now pantryNames rid acc ri =
          { acc with skippedPantry :=
              acc.skippedPantry ++ [ingredientName db ri.ingredientId] } := by
        unfold genStep
        rw [if_neg (by rw [h1]; decide), if_pos h2]
      obtain ⟨ha, hb, hc⟩ := ih (genStep db listId now pantryNames rid acc ri)
        (by rw [hstepeq]; exact hNin) (by rw [hstepeq]; exact hfil)
      refine ⟨by rw [hfold]; exact ha, by rw [hfold]; exact hb, ?_⟩
      intro rj hrj hej
      rw [hfold]
      rcases List.mem_cons.mp hrj with h | h
      · rcases foldl_app_mono _ (fun a => a.skippedPantry)
          (fun a b => (genStep_suffix db listId now pantryNames rid a b).2.2.1) t
          (genStep db listId now pantryNames rid acc ri) with ⟨x, hx⟩
        rw [hx, hstepeq]
        subst h
        rw [hiri, hname]
        exact List.mem_append_left _ (List.mem_append_right _ (by simp))
      · exact hc rj h hej
    · -- a different ingredient: invariants preserved in every branch
      have hNin' : I.id ∉ (genStep db listId now pantryNames rid acc ri).existingIds := by
        unfold genStep
        by_cases h1 : acc.existingIds.contains ri.ingredientId
        · rw [if_pos h1]
          exact hNin
        · rw [if_neg h1]
          by_cases h2 : pantryNames.contains (ingredientNorm db ri.ingredientId)
          · rw [if_pos h2]
            exact hNin
          · rw [if_neg h2]
            dsimp only
            intro hmem
            rcases List.mem_append.mp hmem with h | h
            · exact hNin h
            · have : I.id = ri.ingredientId := by simpa using h
              exact hiri this.symm
      have hfil' : (genStep db listId now pantryNames rid acc ri).items.filter
          (onListPred listId I.id) = [] := by
        unfold genStep
        by_cases h1 : acc.existingIds.contains ri.ingredientId
        · rw [if_pos h1]
          exact hfil
        · rw [if_neg h1]
          by_cases h2 : pantryNames.contains (ingredientNorm db ri.ingredientId)
          · rw [if_pos h2]
            exact hfil
          · rw [if_neg h2]
            dsimp only
            rw [List.filter_append, hfil]
            have hpf : onListPred listId I.id
                { id := acc.nextItemId, shoppingListId := listId,
                  ingredientId := ri.ingredientId, quantity := ri.quantity, unit := ri.unit,
                  addedBy := "meal plan", addedAt := now, fromRecipeId := some rid } = false := by
              unfold onListPred
              simp [hiri]
            simp [hpf]
      obtain ⟨ha, hb, hc⟩ := ih (genStep db listId now pantryNames rid acc ri) hNin' hfil'
      refine ⟨by rw [hfold]; exact ha, by rw [hfold]; exact hb, ?_⟩
      intro rj hrj hej
      rw [hfold]
      rcases List.mem_cons.mp hrj with h | h
      · exact absurd hej (by rw [h]; exact hiri)
      · exact hc rj h hej

theorem genOuter_pantry (db : DB) (listId now : Nat) (pantryNames : List String)
    (I : Ingredient)
    (hname : ingredientName db I.id = I.name)
    (hnorm : ingredientNorm db I.id = I.normalizedName)
    (hpan : pantryNames.contains I.normalizedName = true) :
    ∀ (ms : List MealEntry) (acc : GenAcc),
      I.id ∉ acc.existingIds →
      acc.items.filter (onListPred listId I.id) = [] →
      I.id ∉ (ms.foldl (genMealStep db listId now pantryNames) acc).existingIds ∧
      (ms.foldl (genMealStep db listId now pantryNames) acc).items.filter
          (onListPred listId I.id) = [] ∧
      (∀ m ∈ ms, ∀ rid, m.recipeId = some rid →
        ∀ ri ∈ db.recipeIngredients, ri.recipeId = rid → ri.ingredientId = I.id →
          I.name ∈ (ms.foldl (genMealStep db listId now pantryNames) acc).skippedPantry) := by
  intro ms
  induction ms with
  | nil =>
    intro acc hNin hfil
    refine ⟨hNin, hfil, ?_⟩
    intro m h
    exact absurd h (List.not_mem_nil m)
  | cons m t ih =>
    intro acc hNin hfil
    have hfold : (m :: t).foldl (genMealStep db listId now pantryNames) acc
        = t.foldl (genMealStep db listId now pantryNames)
            (genMealStep db listId now pantryNames acc m) := rfl
    have hstep : I.id ∉ (genMealStep db listId now pantryNames acc m).existingIds ∧
        (genMealStep db listId now pantryNames acc m).items.filter
          (onListPred listId I.id) = [] ∧
        (∀ rid, m.recipeId = some rid →
          ∀ ri ∈ db.recipeIngredients, ri.recipeId = rid → ri.ingredientId = I.id →
            I.name ∈ (genMealStep db listId now pantryNames acc m).skippedPantry) := by
      unfold genMealStep
      cases hr : m.recipeId with
      | none =>
        refine ⟨hNin, hfil, ?_⟩
        intro rid hrid
        cases hrid
      | some rid =>
        obtain ⟨ha, hb, hc⟩ := genInner_pantry db listId now pantryNames rid I hname hnorm
          hpan (db.recipeIngredients.filter (fun ri => ri.recipeId == rid)) acc hNin hfil
        refine ⟨ha, hb, ?_⟩
        intro rid' hrid' ri hri hrid2 hiid
        have hr2 : rid' = rid := by
          injection hrid' with hinj
          exact hinj.symm
        subst hr2
        exact hc ri (List.mem_filter.mpr ⟨hri, by simp [hrid2]⟩) hiid
    obtain ⟨ha2, hb2, hc2⟩ := ih (genMealStep db listId now pantryNames acc m)
      hstep.1 hstep.2.1
    refine ⟨by rw [hfold]; exact ha2, by rw [hfold]; exact hb2, ?_⟩
    intro m' hm' rid hrid ri hri hrid2 hiid
    rw [hfold]
    rcases List.mem_cons.mp hm' with h | h
    · rcases foldl_app_mono _ (fun a => a.skippedPantry)
        (fun a b => (genMealStep_suffix db listId now pantryNames a b).2.2) t
        (genMealStep db listId now pantryNames acc m) with ⟨x, hx⟩
      rw [hx]
      subst h
      exact List.mem_append_left _ (hstep.2.2 rid hrid ri hri hrid2 hiid)
    · exact hc2 m' h rid hrid ri hri hrid2 hiid

/-- The case-C invariant: if the ingredient id has entered the dedup
set, an item for it is on the list. -/
def GenAddInv (listId : Nat) (I : Ingredient) (acc : GenAcc) : Prop :=
  I.id ∈ acc.existingIds →
    ∃ it ∈ acc.items, it.shoppingListId = listId ∧ it.ingredientId = I.id

theorem genStep_addInv (db : DB) (listId now : Nat) (pantryNames : List String)
    (rid : Nat) (I : Ingredient)
    (hnorm : ingredientNorm db I.id = I.normalizedName)
    (hnopan : pantryNames.contains I.normalizedName = false)
    (acc : GenAcc) (ri : RecipeIngredientRow)
    (hinv : GenAddInv listId I acc) :
    GenAddInv listId I (genStep db listId now pantryNames rid acc ri) ∧
    (ri.ingredientId = I.id →
      ∃ it ∈ (genStep db listId now pantryNames rid acc ri).items,
        it.shoppingListId = listId ∧ it.ingredientId = I.id) := by
  unfold genStep
  by_cases h1 : acc.existingIds.contains ri.ingredientId
  · rw [if_pos h1]
    refine ⟨hinv, ?_⟩
    intro he
    apply hinv
    rw [← he]
    simpa using h1
  · rw [if_neg h1]
    by_cases h2 : pantryNames.contains (ingredientNorm db ri.ingredientId)
    · rw [if_pos h2]
      refine ⟨hinv, ?_⟩
      intro he
      rw [he, hnorm] at h2
      rw [hnopan] at h2
      exact absurd h2 (by decide)
    · rw [if_neg h2]
      dsimp only
      constructor
      · intro hmem
        rcases List.mem_append.mp hmem with h | h
        · rcases hinv h with ⟨it, hit, hp⟩
          exact ⟨it, List.mem_append_left _ hit, hp⟩
        · have hIri : I.id = ri.ingredientId := by simpa using h
          exact ⟨{ id := acc.nextItemId, shoppingListId := listId, ingredientId := ri.ingredientId, quantity := ri.quantity, unit := ri.unit, addedBy := "meal plan", addedAt := now, fromRecipeId := some rid }, List.mem_append_right _ (by simp), rfl, hIri.symm⟩
      · intro he
        exact ⟨{ id := acc.nextItemId, shoppingListId := listId, ingredientId := ri.ingredientId, quantity := ri.quantity, unit := ri.unit, addedBy := "meal plan", addedAt := now, fromRecipeId := some rid }, List.mem_append_right _ (by simp), rfl, he⟩

theorem genInner_add (db : DB) (listId now : Nat) (pantryNames : List String)
    (rid : Nat) (I : Ingredient)
    (hnorm : ingredientNorm db I.id = I.normalizedName)
    (hnopan : pantryNames.contains I.normalizedName = false) :
    ∀ (ris : List RecipeIngredientRow) (acc : GenAcc),
      GenAddInv listId I acc →
      GenAddInv listId I (ris.foldl (genStep db listId now pantryNames rid) acc) ∧
      (∀ ri ∈ ris, ri.ingredientId = I.id →
        ∃ it ∈ (ris.foldl (genStep db listId now pantryNames rid) acc).items,
          it.shoppingListId = listId ∧ it.ingredientId = I.id) := by
  intro ris
  induction ris with
  | nil =>
    intro acc hinv
    refine ⟨hinv, ?_⟩
    intro ri h
    exact absurd h (List.not_mem_nil ri)
  | cons ri t ih =>
    intro acc hinv
    have hfold : (ri :: t).foldl (genStep db listId now pantryNames rid) acc
        = t.foldl (genStep db listId now pantryNames rid)
            (genStep db listId now pantryNames rid acc ri) := rfl
    obtain ⟨hinv', hrec⟩ := genStep_addInv db listId now pantryNames rid I hnorm hnopan
      acc ri hinv
    obtain ⟨hinv2, hrec2⟩ := ih (genStep db listId now pantryNames rid acc ri) hinv'
    refine ⟨by rw [hfold]; exact hinv2, ?_⟩
    intro rj hrj hej
    rw [hfold]
    rcases List.mem_cons.mp hrj with h | h
    · rcases foldl_app_mono _ (fun a => a.items)
        (fun a b => (genStep_suffix db listId now pantryNames rid a b).1) t
        (genStep db listId now pantryNames rid acc ri) with ⟨x, hx⟩
      subst h
      rcases hrec hej with ⟨it, hit, hp⟩
      exact ⟨it, by rw [hx]; exact List.mem_append_left _ hit, hp⟩
    · exact hrec2 rj h hej

theorem genOuter_add (db : DB) (listId now : Nat) (pantryNames : List String)
    (I : Ingredient)
    (hnorm : ingredientNorm db I.id = I.normalizedName)
    (hnopan : pantryNames.contains I.normalizedName = false) :
    ∀ (ms : List MealEntry) (acc : GenAcc),
      GenAddInv listId I acc →
      GenAddInv listId I (ms.foldl (genMealStep db listId now pantryNames) acc) ∧
      (∀ m ∈ ms, ∀ rid, m.recipeId = some rid →
        ∀ ri ∈ db.recipeIngredients, ri.recipeId = rid → ri.ingredientId = I.id →
          ∃ it ∈ (ms.foldl (genMealStep db listId now pantryNames) acc).items,
            it.shoppingListId = listId ∧ it.ingredientId = I.id) := by
  intro ms
  induction ms with
  | nil =>
    intro acc hinv
    refine ⟨hinv, ?_⟩
    intro m h
    exact absurd h (List.not_mem_nil m)
  | cons m t ih =>
    intro acc hinv
    have hfold : (m :: t).foldl (genMealStep db listId now pantryNames) acc
        = t.foldl (genMealStep db listId now pantryNames)
            (genMealStep db listId now pantryNames acc m) := rfl
    have hstep : GenAddInv listId I (genMealStep db listId now pantryNames acc m) ∧
        (∀ rid, m.recipeId = some rid →
          ∀ ri ∈ db.recipeIngredients, ri.recipeId = rid → ri.ingredientId = I.id →
            ∃ it ∈ (genMealStep db listId now pantryNames acc m).items,
              it.shoppingListId = listId ∧ it.ingredientId = I.id) := by
      unfold genMealStep
      cases hr : m.recipeId with
      | none =>
        refine ⟨hinv, ?_⟩
        intro rid hrid
        cases hrid
      | some rid =>
        obtain ⟨ha, hb⟩ := genInner_add db listId now pantryNames rid I hnorm hnopan
          (db.recipeIngredients.filter (fun ri => ri.recipeId == rid)) acc hinv
        refine ⟨ha, ?_⟩
        intro rid' hrid' ri hri hrid2 hiid
        have hr2 : rid' = rid := by
          injection hrid' with hinj
          exact hinj.symm
        subst hr2
        exact hb ri (List.mem_filter.mpr ⟨hri, by simp [hrid2]⟩) hiid
    obtain ⟨ha2, hb2⟩ := ih (genMealStep db listId now pantryNames acc m) hstep.1
    refine ⟨by rw [hfold]; exact ha2, ?_⟩
    intro m' hm' rid hrid ri hri hrid2 hiid
    rw [hfold]
    rcases List.mem_cons.mp hm' with h | h
    · rcases foldl_app_mono _ (fun a => a.items)
        (fun a b => (genMealStep_suffix db listId now pantryNames a b).1) t
        (genMealStep db listId now pantryNames acc m) with ⟨x, hx⟩
      subst h
      rcases hstep.2 rid hrid ri hri hrid2 hiid with ⟨it, hit, hp⟩
      exact ⟨it, by rw [hx]; exact List.mem_append_left _ hit, hp⟩
    · exact hb2 m' h rid hrid ri hri hrid2 hiid

/-- C6: for every ingredient linked by a recipe of some meal in the
active plan, `generate_list_from_meals` (which succeeds and reports
skipped-existing / skipped-pantry lists alongside the added count):
(a) if an item for the ingredient is already on the active list, the
count of its items is unchanged and its name is reported in
skipped-existing; (b) otherwise, if its normalized name matches a
pantry name, no item for it is added and its name is reported in
skipped-pantry; (c) otherwise an item for it is added to the active
list. -/
theorem generate_list_dedup (db : DB) (plan : MealPlanRow) (meals : List MealEntry)
    (lst : ShoppingListRow) (I : Ingredient)
    (hp : findPlanningPlan db = some plan)
    (hm : plan.meals = some meals)
    (hne : meals ≠ [])
    (hl : findActiveList db = some lst)
    (hI : I ∈ db.ingredients)
    (hnd : (db.ingredients.map (fun i => i.id)).Nodup) :
    ∃ n se sp,
      execute_generate_list_from_meals db
        = ({ db with
             items := (genFinal db lst.id meals).items,
             nextItemId := (genFinal db lst.id meals).nextItemId }, .ok n se sp) ∧
      ((∃ it ∈ db.items, it.shoppingListId = lst.id ∧ it.ingredientId = I.id) →
        countOnList (execute_generate_list_from_meals db).1 lst.id I.id
            = countOnList db lst.id I.id ∧
        (linkedInPlan db meals I.id → I.name ∈ se)) ∧
      ((¬∃ it ∈ db.items, it.shoppingListId = lst.id ∧ it.ingredientId = I.id) →
        (genPantryNames db).contains I.normalizedName = true →
        linkedInPlan db meals I.id →
          countOnList (execute_generate_list_from_meals db).1 lst.id I.id = 0 ∧
          I.name ∈ sp) ∧
      ((¬∃ it ∈ db.items, it.shoppingListId = lst.id ∧ it.ingredientId = I.id) →
        (genPantryNames db).contains I.normalizedName = false →
        linkedInPlan db meals I.id →
          ∃ it ∈ (execute_generate_list_from_meals db).1.items,
            it.shoppingListId = lst.id ∧ it.ingredientId = I.id) := by
  have hfind : findIngredient db I.id = some I := find_by_id db.ingredients I hI hnd
  have hname : ingredientName db I.id = I.name := by
    unfold ingredientName
    rw [hfind]
  have hnormI : ingredientNorm db I.id = I.normalizedName := by
    unfold ingredientNorm
    rw [hfind]
  have hcr : getOrCreateActiveList db = (db, lst) := by
    simp [getOrCreateActiveList, hl]
  have hms : meals.isEmpty = false := by
    cases meals with
    | nil => exact absurd rfl hne
    | cons a t => rfl
  have hres : execute_generate_list_from_meals db
      = ({ db with
           items := (genFinal db lst.id meals).items,
           nextItemId := (genFinal db lst.id meals).nextItemId },
         .ok (genFinal db lst.id meals).added (genFinal db lst.id meals).skippedExisting
           (genFinal db lst.id meals).skippedPantry) := by
    simp [execute_generate_list_from_meals, hp, hm, hms, hcr]
  refine ⟨(genFinal db lst.id meals).added, (genFinal db lst.id meals).skippedExisting,
    (genFinal db lst.id meals).skippedPantry, hres, ?_, ?_, ?_⟩
  · -- (a) already on the list
    intro hon
    have hIn0 : I.id ∈ (genAcc0 db lst.id).existingIds := by
      rcases hon with ⟨it, hit, h1, h2⟩
      exact List.mem_map.mpr ⟨it, List.mem_filter.mpr ⟨hit, by simp [h1]⟩, h2⟩
    obtain ⟨hA1, hA2, hA3⟩ := genOuter_existing db lst.id db.now (genPantryNames db) I
      hname meals (genAcc0 db lst.id) hIn0
    constructor
    · rw [hres]
      show ((genFinal db lst.id meals).items.filter (onListPred lst.id I.id)).length
        = (db.items.filter (onListPred lst.id I.id)).length
      rw [show (genFinal db lst.id meals).items.filter (onListPred lst.id I.id)
          = (genAcc0 db lst.id).items.filter (onListPred lst.id I.id) from hA2]
      rfl
    · intro hlink
      rcases hlink with ⟨m, hm', rid, hrid, ri, hri, hrr, hii⟩
      exact hA3 m hm' rid hrid ri hri hrr hii
  · -- (b) not on the list, in the pantry
    intro hnot hpan hlink
    have hNin0 : I.id ∉ (genAcc0 db lst.id).existingIds := by
      intro hmem
      rcases List.mem_map.mp hmem with ⟨it, hitf, heq⟩
      rcases List.mem_filter.mp hitf with ⟨hit, hsl⟩
      exact hnot ⟨it, hit, by simpa using hsl, heq⟩
    have hfil0 : (genAcc0 db lst.id).items.filter (onListPred lst.id I.id) = [] := by
      refine List.filter_eq_nil_iff.mpr ?_
      intro it hit hpred
      have hpred2 : (it.shoppingListId == lst.id) = true ∧ (it.ingredientId == I.id) = true := by
        simpa [onListPred] using hpred
      exact hnot ⟨it, hit, by simpa using hpred2.1, by simpa using hpred2.2⟩
    obtain ⟨hB1, hB2, hB3⟩ := genOuter_pantry db lst.id db.now (genPantryNames db) I
      hname hnormI hpan meals (genAcc0 db lst.id) hNin0 hfil0
    constructor
    · rw [hres]
      show ((genFinal db lst.id meals).items.filter (onListPred lst.id I.id)).length = 0
      rw [show (genFinal db lst.id meals).items.filter (onListPred lst.id I.id) = []
          from hB2]
      rfl
    · rcases hlink with ⟨m, hm', rid, hrid, ri, hri, hrr, hii⟩
      exact hB3 m hm' rid hrid ri hri hrr hii
  · -- (c) not on the list, not in the pantry: added
    intro hnot hnopan hlink
    have hinv0 : GenAddInv lst.id I (genAcc0 db lst.id) := by
      intro hmem
      rcases List.mem_map.mp hmem with ⟨it, hitf, heq⟩
      rcases List.mem_filter.mp hitf with ⟨hit, hsl⟩
      exact ⟨it, hit, by simpa using hsl, heq⟩
    obtain ⟨hC1, hC2⟩ := genOuter_add db lst.id db.now (genPantryNames db) I
      hnormI hnopan meals (genAcc0 db lst.id) hinv0
    rcases hlink with ⟨m, hm', rid, hrid, ri, hri, hrr, hii⟩
    rcases hC2 m hm' rid hrid ri hri hrr hii with ⟨it, hit, hp1, hp2⟩
    rw [hres]
    exact ⟨it, hit, hp1, hp2⟩

/-- Witness for C6 at the spec's dedup scenario: the plan holds one
meal linked to a recipe requiring "Milk", and the active list already
holds an item whose ingredient normalizes to "milk" — the item count
for milk is unchanged (still 1) and "Milk" is reported in
skipped-existing. -/
theorem generate_list_dedup_witness :
    ∃ n se sp,
      (execute_generate_list_from_meals
        { ingredients := [{ id := 1, name := "Milk", normalizedName := "milk" }],
          nextIngredientId := 2,
          lists := [{ id := 1, status := .active }], nextListId := 2,
          items := [{ id := 1, shoppingListId := 1, ingredientId := 1 }],
          nextItemId := 2,
          mealPlans := [{ id := 1, weekStartDate := 0,
                          meals := some [{ mealName := "Cereal", recipeId := some 1 }],
                          status := .planning, createdAt := 0 }],
          nextPlanId := 2,
          recipes := [{ id := 1, name := "Cereal" }],
          recipeIngredients := [{ id := 1, recipeId := 1, ingredientId := 1 }] }).2
        = .ok n se sp ∧
      "Milk" ∈ se ∧
      countOnList (execute_generate_list_from_meals
        { ingredients := [{ id := 1, name := "Milk", normalizedName := "milk" }],
          nextIngredientId := 2,
          lists := [{ id := 1, status := .active }], nextListId := 2,
          items := [{ id := 1, shoppingListId := 1, ingredientId := 1 }],
          nextItemId := 2,
          mealPlans := [{ id := 1, weekStartDate := 0,
                          meals := some [{ mealName := "Cereal", recipeId := some 1 }],
                          status := .planning, createdAt := 0 }],
          nextPlanId := 2,
          recipes := [{ id := 1, name := "Cereal" }],
          recipeIngredients := [{ id := 1, recipeId := 1, ingredientId := 1 }] }).1 1 1
        = 1 := by
  obtain ⟨n, se, sp, hres, hA, hB, hC⟩ := generate_list_dedup
    { ingredients := [{ id := 1, name := "Milk", normalizedName := "milk" }],
      nextIngredientId := 2,
      lists := [{ id := 1, status := .active }], nextListId := 2,
      items := [{ id := 1, shoppingListId := 1, ingredientId := 1 }],
      nextItemId := 2,
      mealPlans := [{ id := 1, weekStartDate := 0,
                      meals := some [{ mealName := "Cereal", recipeId := some 1 }],
                      status := .planning, createdAt := 0 }],
      nextPlanId := 2,
      recipes := [{ id := 1, name := "Cereal" }],
      recipeIngredients := [{ id := 1, recipeId := 1, ingredientId := 1 }] }
    { id := 1, weekStartDate := 0,
      meals := some [{ mealName := "Cereal", recipeId := some 1 }],
      status := .planning, createdAt := 0 }
    [{ mealName := "Cereal", recipeId := some 1 }]
    { id := 1, status := .active }
    { id := 1, name := "Milk", normalizedName := "milk" }
    (by decide) (by decide) (by decide) (by decide) (by decide) (by decide)
  obtain ⟨hcount, hrec⟩ := hA (by decide)
  refine ⟨n, se, sp, ?_, ?_, ?_⟩
  · rw [hres]
  · refine hrec ⟨{ mealName := "Cereal", recipeId := some 1 }, by decide, 1, rfl,
      { id := 1, recipeId := 1, ingredientId := 1 }, by decide, rfl, rfl⟩
  · rw [hcount]
    decide

end GroceryAssistant
